import Mathlib

/-!
# API gateway: request pipeline, reverse proxy and health aggregation

A shallow embedding of the gateway's middleware (`internal/middleware`), its
cache client (`internal/pkg/cache`), the response envelope
(`internal/pkg/response`), the reverse proxy (`internal/proxy`) and the health
controller (`internal/controller`).

The libraries the code is written against are modelled by their documented
behaviour:

* gin: a `Context` carries the request, the response writer and the position
  `index` in the handler chain; `Next` and `Abort` work on `index`.
* go-redis: the store is a map from keys to typed values with a time to live.
  Every call is appended to a log; call number `n` fails with a connection
  error exactly when `faults n` holds, and a failed call leaves the data
  untouched. A value that go-redis cannot encode is refused.
-/

namespace Gateway

/-! ## Bytes written to a client -/

/-- A JSON document as `encoding/json` receives it. `seconds ns` is the
float64 number of seconds of a `time.Duration` of `ns` nanoseconds. -/
inductive Json where
  | null
  | int (n : Int)
  | str (s : String)
  | seconds (ns : Int)
  | obj (fields : List (String × Json))

/-- One `Write` to the response: either the encoding of a JSON document (the
encoder itself is not modelled) or raw bytes. -/
inductive Chunk where
  | json (v : Json)
  | raw (bytes : String)

abbrev Bytes := List Chunk

/-! ## The cache (go-redis behind `cache.Cache`) -/

/-- The `CachedResponse` struct of the idempotency middleware. `Headers` is a Go
`map[string]string`. -/
structure CachedResponse where
  StatusCode : Nat
  Body : Bytes
  Headers : String → Option String

/-- A value handed to the cache or held by it. `int` is an integer as go-redis
writes it (the Go value `true` is written as the integer 1, so the lock entry is an
`int`); `response` is a `CachedResponse`, as a Go struct when it is handed to `Set`
and as a JSON document that `json.Unmarshal` decodes to it when it is held by the
store. -/
inductive Value where
  | int (n : Int)
  | response (r : CachedResponse)

/-- A key's value and its remaining time to live in nanoseconds (`none`: the key
does not expire). -/
structure Entry where
  value : Value
  ttl : Option Int

inductive Cmd where
  | get (key : String)
  | set (key : String) (value : Value) (expiration : Int)
  | del (key : String)
  | ttl (key : String)
  | incr (key : String)

structure Redis where
  data : String → Option Entry
  log : List Cmd

/-- Errors of a cache call. `Nil` is `redis.Nil` (key not found), `unavailable` a
connection error, `unmarshal` a `json.Unmarshal` error in `Cache.Get`,
`notInteger` the reply of INCR on a value that is not an integer, `marshal` the
refusal of go-redis to write an argument it cannot encode. -/
inductive CacheError where
  | Nil
  | unavailable
  | unmarshal
  | notInteger
  | marshal
  deriving DecidableEq

/-- `json.Unmarshal` into an `int`. -/
def Value.toInt? : Value → Option Int
  | .int n => some n
  | .response _ => none

/-- `json.Unmarshal` into a `CachedResponse`. -/
def Value.toResponse? : Value → Option CachedResponse
  | .int _ => none
  | .response r => some r

def Redis.record (r : Redis) (cmd : Cmd) : Redis :=
  { r with log := r.log ++ [cmd] }

/-- `Cache.Get`: GET, then `json.Unmarshal` into the caller's object (`decode`). -/
def Cache.Get {α : Type} (decode : Value → Option α) (faults : Nat → Bool) (r : Redis)
    (key : String) : Except CacheError α × Redis :=
  let r1 := r.record (.get key)
  if faults r.log.length then (.error .unavailable, r1)
  else
    match r.data key with
    | none => (.error .Nil, r1)
    | some e =>
      match decode e.value with
      | none => (.error .unmarshal, r1)
      | some v => (.ok v, r1)

/-- `Cache.Set`: the value goes to go-redis as it is (there is no `json.Marshal` in
`Set`). An integer or a boolean is written by a plain SET, which replaces whatever
the key held; a positive expiration becomes the key's time to live. A
`CachedResponse` is a struct without `MarshalBinary`: go-redis refuses it, the call
returns an error and nothing is stored. -/
def Cache.Set (faults : Nat → Bool) (r : Redis) (key : String) (value : Value)
    (expiration : Int) : Option CacheError × Redis :=
  let r1 := r.record (.set key value expiration)
  if faults r.log.length then (some .unavailable, r1)
  else
    match value with
    | .response _ => (some .marshal, r1)
    | .int _ =>
      let e : Entry := { value := value, ttl := if 0 < expiration then some expiration else none }
      (none, { r1 with data := fun k => if k = key then some e else r1.data k })

/-- `Cache.Delete`: DEL. -/
def Cache.Delete (faults : Nat → Bool) (r : Redis) (key : String) : Option CacheError × Redis :=
  let r1 := r.record (.del key)
  if faults r.log.length then (some .unavailable, r1)
  else (none, { r1 with data := fun k => if k = key then none else r1.data k })

/-- `Cache.TTL`: -2ns for a missing key, -1ns for a key without expiry. -/
def Cache.TTL (faults : Nat → Bool) (r : Redis) (key : String) : Except CacheError Int × Redis :=
  let r1 := r.record (.ttl key)
  if faults r.log.length then (.error .unavailable, r1)
  else
    match r.data key with
    | none => (.ok (-2), r1)
    | some e =>
      match e.ttl with
      | none => (.ok (-1), r1)
      | some d => (.ok d, r1)

/-- `Cache.Incr`: INCR creates a missing key at 1 without expiry and keeps the
time to live of an existing one. -/
def Cache.Incr (faults : Nat → Bool) (r : Redis) (key : String) : Except CacheError Int × Redis :=
  let r1 := r.record (.incr key)
  if faults r.log.length then (.error .unavailable, r1)
  else
    match r.data key with
    | none =>
      (.ok 1, { r1 with data := fun k => if k = key then some ⟨.int 1, none⟩ else r1.data k })
    | some e =>
      match e.value with
      | .int n =>
        (.ok (n + 1),
          { r1 with data := fun k => if k = key then some ⟨.int (n + 1), e.ttl⟩ else r1.data k })
      | .response _ => (.error .notInteger, r1)

/-! ## gin -/

structure Request where
  Method : String
  Path : String
  Host : String
  Scheme : String
  /-- The values of a request header. -/
  Header : String → List String
  /-- The request body: `none` is a nil body, `some (.error e)` a body whose read
  fails, `some (.ok b)` a body of bytes `b`. -/
  Body : Option (Except String String)

/-- `http.Header.Get`: the first value, or the empty string. -/
def Request.GetHeader (req : Request) (key : String) : String :=
  (req.Header key).headD ""

/-- The response writer of gin. `captured` is the buffer of the innermost
`responseBodyWriter` wrapped around it. -/
structure ResponseWriter where
  status : Nat
  written : Bool
  header : String → Option (List String)
  body : Bytes
  captured : Bytes

/-- A request as the reverse proxy sends it to an upstream. -/
structure OutRequest where
  Scheme : String
  Host : String
  Path : String
  Header : String → List String

/-- A `gin.Context` together with the world the handlers act on: the store, the
clock, and the requests sent to upstreams. `trace` is a ghost record of the
chain positions whose handler `Next` has called. -/
structure Context where
  Request : Request
  Keys : String → Option String
  ClientIP : String
  Writer : ResponseWriter
  index : Nat
  redis : Redis
  clock : Int
  outbound : List OutRequest
  trace : List Nat

abbrev HandlerFunc := Context → Context

def abortIndex : Nat := 63

/-- `responseWriter.WriteHeader`: the status of a response that has been written
cannot be changed. -/
def ResponseWriter.WriteHeader (w : ResponseWriter) (code : Nat) : ResponseWriter :=
  if 0 < code ∧ w.status ≠ code then
    if w.written then w else { w with status := code }
  else w

def ResponseWriter.WriteHeaderNow (w : ResponseWriter) : ResponseWriter :=
  { w with written := true }

/-- `responseBodyWriter.Write` over `responseWriter.Write`. -/
def ResponseWriter.Write (w : ResponseWriter) (b : Bytes) : ResponseWriter :=
  { w with written := true, body := w.body ++ b, captured := w.captured ++ b }

/-- The `writeContentType` helper of gin/render: sets Content-Type unless set. -/
def ResponseWriter.writeContentType (w : ResponseWriter) (value : String) : ResponseWriter :=
  match w.header "Content-Type" with
  | some (_ :: _) => w
  | _ => { w with header := fun k => if k = "Content-Type" then some [value] else w.header k }

def bodyAllowedForStatus (status : Nat) : Bool :=
  if 100 ≤ status ∧ status ≤ 199 then false
  else if status = 204 then false
  else if status = 304 then false
  else true

/-- `c.Header`: an empty value deletes the header. Header names are taken to be
canonical MIME keys. -/
def Context.Header (c : Context) (key value : String) : Context :=
  if value = "" then
    { c with Writer := { c.Writer with header := fun k => if k = key then none else c.Writer.header k } }
  else
    { c with Writer := { c.Writer with header := fun k => if k = key then some [value] else c.Writer.header k } }

/-- `c.Render` for the renderers used here (JSON and Data). -/
def Context.Render (c : Context) (code : Nat) (contentType : String) (data : Bytes) : Context :=
  let w := c.Writer.WriteHeader code
  if bodyAllowedForStatus code then
    { c with Writer := (w.writeContentType contentType).Write data }
  else
    { c with Writer := (w.writeContentType contentType).WriteHeaderNow }

def Context.JSON (c : Context) (code : Nat) (obj : Json) : Context :=
  c.Render code "application/json; charset=utf-8" [.json obj]

def Context.Data (c : Context) (code : Nat) (contentType : String) (data : Bytes) : Context :=
  c.Render code contentType data

def Context.Abort (c : Context) : Context :=
  { c with index := abortIndex }

def Context.IsAborted (c : Context) : Bool :=
  decide (abortIndex ≤ c.index)

/-- The loop of `c.Next`: `for c.index < len(c.handlers) { c.handlers[c.index](c); c.index++ }`.
`index` is unexported, a handler can only raise it (through `Next` and `Abort`), so
the loop keeps the larger of the values before and after the call. The loop owns
the ghost `trace`. -/
def nextLoop (handlers : List HandlerFunc) (c : Context) : Context :=
  if h : c.index < handlers.length then
    let c1 := (handlers.get ⟨c.index, h⟩) c
    nextLoop handlers { c1 with index := max c.index c1.index + 1, trace := c.trace ++ [c.index] }
  else c
termination_by handlers.length - c.index
decreasing_by
  simp_wf
  omega

/-- `c.Next`: `c.index++`, then the loop. -/
def Context.Next (handlers : List HandlerFunc) (c : Context) : Context :=
  nextLoop handlers { c with index := c.index + 1 }

/-! ## `internal/pkg/response` -/

/-- The `Response` struct; `Data` is `omitempty`. -/
structure Response where
  StatusCode : Nat
  Error : String
  Data : Option Json

def NewResponse (statusCode : Nat) (error : String) (data : Option Json) : Response :=
  { StatusCode := statusCode, Error := error, Data := data }

/-- The JSON encoding of a `Response` by its struct tags. -/
def Response.toJson (r : Response) : Json :=
  .obj ([("status_code", .int r.StatusCode), ("error", .str r.Error)] ++
    match r.Data with
    | none => []
    | some d => [("data", d)])

def response.Success (c : Context) (data : Json) : Context :=
  c.JSON 200 (NewResponse 200 "success" (some data)).toJson

def response.Error (c : Context) (statusCode : Nat) (error : String) : Context :=
  c.JSON statusCode (NewResponse statusCode error none).toJson

/-! ## `config` -/

structure RatelimitConfig where
  Limit : Int
  Period : Int

structure Config where
  Ratelimit : RatelimitConfig
  FowardServiceUrl : String → Option String

/-! ## `internal/middleware/ratelimit_middleware.go` -/

def RATELIMIT_HEADER : String := "X-RateLimit-Limit"
def RATELIMIT_REMAINING : String := "X-RateLimit-Remaining"
def RATELIMIT_RESET : String := "X-RateLimit-Reset"

/-- `time.Now().Add(ttl).Unix()` for a clock in nanoseconds. -/
def unixAfter (clock ttl : Int) : Int := (clock + ttl) / 1000000000

/-- `checkRateLimit`: the count, whether it reaches the limit, or an error. -/
def checkRateLimit (cfg : Config) (faults : Nat → Bool) (r : Redis) (key : String) :
    Except CacheError (Int × Bool) × Redis :=
  match Cache.Get Value.toInt? faults r key with
  | (.ok count, r1) => (.ok (count, decide (cfg.Ratelimit.Limit ≤ count)), r1)
  | (.error .Nil, r1) =>
    match Cache.Set faults r1 key (.int 1) cfg.Ratelimit.Period with
    | (some err, r2) => (.error err, r2)
    | (none, r2) => (.ok (1, decide (cfg.Ratelimit.Limit ≤ 1)), r2)
  | (.error err, r1) => (.error err, r1)

/-- The identifier of `HandleRateLimit`: the user id if set, else the client IP. -/
def rateLimitIdentifier (c : Context) : String :=
  match c.Keys "user_id" with
  | some userID => userID
  | none => c.ClientIP

def rateLimitKey (c : Context) : String :=
  "ratelimit:" ++ rateLimitIdentifier c

def HandleRateLimit (cfg : Config) (faults : Nat → Bool) (handlers : List HandlerFunc)
    (c : Context) : Context :=
  let key := rateLimitKey c
  match checkRateLimit cfg faults c.redis key with
  | (.error _, r1) => Context.Next handlers { c with redis := r1 }
  | (.ok (count, isExceeded), r1) =>
    if isExceeded then
      let t := Cache.TTL faults r1 key
      let ttl : Int :=
        match t.1 with
        | .ok d => d
        | .error _ => 0
      let c1 := { c with redis := t.2 }
      let c2 := c1.Header RATELIMIT_HEADER (toString cfg.Ratelimit.Limit)
      let c3 := c2.Header RATELIMIT_REMAINING "0"
      let c4 := c3.Header RATELIMIT_RESET (toString (unixAfter c.clock ttl))
      let c5 := c4.JSON 429 (.obj [("error", .str "Rate limit exceeded"), ("retry_after", .seconds ttl)])
      c5.Abort
    else
      let i := Cache.Incr faults r1 key
      let c1 := { c with redis := i.2 }
      let c2 := c1.Header RATELIMIT_HEADER (toString cfg.Ratelimit.Limit)
      let c3 := c2.Header RATELIMIT_REMAINING (toString (cfg.Ratelimit.Limit - count - 1))
      let t := Cache.TTL faults c3.redis key
      let c4 := { c3 with redis := t.2 }
      let c5 :=
        match t.1 with
        | .ok ttl => c4.Header RATELIMIT_RESET (toString (unixAfter c.clock ttl))
        | .error _ => c4
      Context.Next handlers c5

/-- The store after the requests `cs` have gone through `HandleRateLimit` one after
another, each one starting on the store the one before left. -/
def rateLimitStore (cfg : Config) (faults : Nat → Bool) (handlers : List HandlerFunc) :
    List Context → Redis → Redis
  | [], r => r
  | c :: cs, r =>
    rateLimitStore cfg faults handlers cs (HandleRateLimit cfg faults handlers { c with redis := r }).redis

/-! ## `internal/middleware/idempotency_middleware.go` -/

def X_IDEMPOTENCY_KEY : String := "X-Idempotency-Key"

/-- 24 hours in nanoseconds. -/
def IDEMPOTENCY_TTL : Int := 24 * 3600 * 1000000000

/-- The 10 seconds of the lock entry, in nanoseconds. -/
def LOCK_TTL : Int := 10 * 1000000000

def isIdempotentMethod (method : String) : Bool :=
  method == "POST" || method == "PUT" || method == "PATCH" || method == "DELETE"

/-- `generateIdempotencyKey`: the hex SHA-256 (`sha256hex`, a parameter) of method,
path, user id and body. Reading the body puts an equal body back. -/
def generateIdempotencyKey (sha256hex : String → String) (c : Context) : Except String String :=
  let s0 := c.Request.Method ++ ":" ++ c.Request.Path
  let s1 :=
    match c.Keys "user_id" with
    | some userId => s0 ++ ("user_id:" ++ userId)
    | none => s0
  match c.Request.Body with
  | none => .ok (sha256hex s1)
  | some (.error err) => .error err
  | some (.ok bodyBytes) => .ok (sha256hex (s1 ++ bodyBytes))

/-- The key of a request: the X-Idempotency-Key header, else the generated key. -/
def idempotencyKeyOf (sha256hex : String → String) (c : Context) : Except String String :=
  let idempotencyKey := c.Request.GetHeader X_IDEMPOTENCY_KEY
  if idempotencyKey = "" then generateIdempotencyKey sha256hex c else .ok idempotencyKey

def idempotencyCacheKey (method idempotencyKey : String) : String :=
  "idempotency:" ++ method ++ ":" ++ idempotencyKey

def idempotencyLockKey (method idempotencyKey : String) : String :=
  "idempotency_lock:" ++ method ++ ":" ++ idempotencyKey

/-- `for k, v := range cachedResponse.Headers { c.Header(k, v) }`. Go visits the
keys of a map in no fixed order and each step acts on its own key only, so the
loop is given by what it does to each key. -/
def replayHeaders (headers : String → Option String) (c : Context) : Context :=
  let header : String → Option (List String) := fun k =>
    match headers k with
    | some v => if v = "" then none else some [v]
    | none => c.Writer.header k
  { c with Writer := { c.Writer with header := header } }

/-- The `headers` map built from `c.Writer.Header()`: the first value of every
header that has one. -/
def firstValues (header : String → Option (List String)) : String → Option String :=
  fun k =>
    match header k with
    | some (v :: _) => some v
    | _ => none

/-- The deferred `im.cache.Delete(ctx, lockKey)`. -/
def releaseLock (faults : Nat → Bool) (lockKey : String) (c : Context) : Context :=
  { c with redis := (Cache.Delete faults c.redis lockKey).2 }

/-- The tail of `HandleIdempotency`, from the check of the status after the first
`c.Next()` on (the deferred delete not included). -/
def storeResponse (faults : Nat → Bool) (handlers : List HandlerFunc) (cacheKey : String)
    (c : Context) : Context :=
  if 500 ≤ c.Writer.status then c
  else
    let cachedResponse : CachedResponse :=
      { StatusCode := c.Writer.status
        Headers := firstValues c.Writer.header
        Body := c.Writer.captured }
    let s := Cache.Set faults c.redis cacheKey (.response cachedResponse) IDEMPOTENCY_TTL
    Context.Next handlers { c with redis := s.2 }

def HandleIdempotency (sha256hex : String → String) (faults : Nat → Bool)
    (handlers : List HandlerFunc) (c : Context) : Context :=
  if !isIdempotentMethod c.Request.Method then Context.Next handlers c
  else
    match idempotencyKeyOf sha256hex c with
    | .error _ => Context.Next handlers c
    | .ok idempotencyKey =>
      let cacheKey := idempotencyCacheKey c.Request.Method idempotencyKey
      match Cache.Get Value.toResponse? faults c.redis cacheKey with
      | (.ok cachedResponse, r1) =>
        let c1 := replayHeaders cachedResponse.Headers { c with redis := r1 }
        let c2 := c1.Header "X-Idempotency-Hit" "true"
        let c3 := c2.Data cachedResponse.StatusCode "application/json" cachedResponse.Body
        c3.Abort
      | (.error _, r1) =>
        let lockKey := idempotencyLockKey c.Request.Method idempotencyKey
        match Cache.Set faults r1 lockKey (.int 1) LOCK_TTL with
        | (some _, r2) =>
          (response.Error { c with redis := r2 } 409
            "A request with the same idempotency key is already being processed").Abort
        | (none, r2) =>
          let c1 := { c with redis := r2, Writer := { c.Writer with captured := [] } }
          let c2 := Context.Next handlers c1
          releaseLock faults lockKey (storeResponse faults handlers cacheKey c2)

/-! ## `internal/proxy/proxy.go` -/

structure URL where
  Scheme : String
  Host : String
  Path : String

/-- `strings.HasPrefix`. -/
def hasPrefix (s pre : String) : Bool :=
  pre.data.isPrefixOf s.data

/-- `strings.HasSuffix`. -/
def hasSuffix (s suf : String) : Bool :=
  suf.data.isSuffixOf s.data

/-- `strings.TrimPrefix`. -/
def trimPrefix (s pre : String) : String :=
  if hasPrefix s pre then ⟨s.data.drop pre.data.length⟩ else s

/-- `singleJoiningSlash` of net/http/httputil. -/
def singleJoiningSlash (a b : String) : String :=
  let aslash := hasSuffix a "/"
  let bslash := hasPrefix b "/"
  if aslash && bslash then a ++ ⟨b.data.drop 1⟩
  else if !aslash && !bslash then a ++ "/" ++ b
  else a ++ b

/-- The path the custom director leaves in `req.URL.Path`: the director of
`NewSingleHostReverseProxy` joins the target path and the request path (both taken
without a raw, escaped form), then the service name is stripped. -/
def directorPath (serviceName targetPath path : String) : String :=
  let joined := singleJoiningSlash targetPath path
  if hasPrefix joined ("/" ++ serviceName) then
    let trimmed := trimPrefix joined ("/" ++ serviceName)
    if trimmed = "" then "/" else trimmed
  else joined

/-- The custom director of `ForwardRequest`. -/
def director (serviceName : String) (target : URL) (c : Context) : OutRequest :=
  let h0 : String → List String := c.Request.Header
  let h1 : String → List String :=
    match c.Keys "user_id" with
    | some userID => fun k => if k = "X-User-ID" then [userID] else h0 k
    | none => h0
  let h2 : String → List String := fun k => if k = "X-Forwarded-For" then [c.ClientIP] else h1 k
  let h3 : String → List String := fun k => if k = "X-Forwarded-Host" then [c.Request.Host] else h2 k
  let h4 : String → List String := fun k => if k = "X-Forwarded-Proto" then [c.Request.Scheme] else h3 k
  let requestID := c.Request.GetHeader "X-Request-ID"
  let requestID := if requestID = "" then toString c.clock else requestID
  { Scheme := target.Scheme
    Host := target.Host
    Path := directorPath serviceName target.Path c.Request.Path
    Header := fun k => if k = "X-Request-ID" then [requestID] else h4 k }

/-- What the transport of the reverse proxy gives back for a request; the body of
a response is taken to be readable. -/
inductive RoundTrip where
  | failed (err : String)
  | response (status : Nat) (header : String → List String) (body : String)

/-- `ReverseProxy.ServeHTTP` on an upstream response: the headers are added to
those of the writer, then the status and the body are written. -/
def relayResponse (w : ResponseWriter) (status : Nat) (header : String → List String)
    (body : String) : ResponseWriter :=
  let w1 : ResponseWriter :=
    { w with header := fun k =>
        match header k with
        | [] => w.header k
        | vs => some ((w.header k).getD [] ++ vs) }
  let w2 := w1.WriteHeader status
  if body = "" then w2 else w2.Write [.raw body]

/-- `ForwardRequest(serviceName)`. `urlParse` is `url.Parse`, `transport` the
upstream as seen through the HTTP client. -/
def ForwardRequest (cfg : Config) (urlParse : String → Except String URL)
    (transport : OutRequest → RoundTrip) (serviceName : String) (c : Context) : Context :=
  let notFound : Context :=
    (response.Error c 404 ("Service \x27" ++ serviceName ++ "\x27 not found")).Abort
  match cfg.FowardServiceUrl serviceName with
  | none => notFound
  | some serviceURL =>
    if serviceURL = "" then notFound
    else
      match urlParse serviceURL with
      | .error _ => (response.Error c 500 "Internal server error").Abort
      | .ok target =>
        let req := director serviceName target c
        let c1 := { c with outbound := c.outbound ++ [req] }
        match transport req with
        | .failed _ => ((response.Error c1 502 "Bad gateway").Abort).Abort
        | .response status header body =>
          ({ c1 with Writer := relayResponse c1.Writer status header body }).Abort

/-- `SetupRoutes`: for every service of the registry a group `"/" + service` with
`group.Any("", ForwardRequest(service))`, that is, one route for the exact path
`/service`, for every method. `services` are the keys of the registry map. -/
def SetupRoutes (cfg : Config) (urlParse : String → Except String URL)
    (transport : OutRequest → RoundTrip) (services : List String) :
    List (String × HandlerFunc) :=
  services.map fun service => ("/" ++ service, ForwardRequest cfg urlParse transport service)

/-- The path with its trailing slash removed, or added when it has none. -/
def toggleTrailingSlash (path : String) : String :=
  if hasSuffix path "/" then ⟨path.data.dropLast⟩ else path ++ "/"

/-- gin's `handleHTTPRequest` on an engine without global middleware whose routes
are static paths, as `SetupRoutes` registers them. A request whose path is a route
runs the handler of the route. Otherwise, when the path with its trailing slash
toggled is a route, the request is redirected there (`RedirectTrailingSlash`; the
body of the redirect is left out). Otherwise the answer is 404 with the plain text
`404 page not found`. -/
def serveHTTP (routes : List (String × HandlerFunc)) (c : Context) : Context :=
  match routes.find? fun r => r.1 == c.Request.Path with
  | some r => nextLoop [r.2] { c with index := 0 }
  | none =>
    match routes.find? fun r => r.1 == toggleTrailingSlash c.Request.Path with
    | some r =>
      if c.Request.Method ≠ "CONNECT" ∧ c.Request.Path ≠ "/" then
        let code := if c.Request.Method = "GET" then 301 else 307
        let c1 := c.Header "Location" r.1
        { c1 with Writer := (c1.Writer.WriteHeader code).WriteHeaderNow }
      else
        let w : ResponseWriter := { c.Writer with status := 404 }
        { c with Writer := (w.writeContentType "text/plain").Write [.raw "404 page not found"] }
    | none =>
      let w : ResponseWriter := { c.Writer with status := 404 }
      { c with Writer := (w.writeContentType "text/plain").Write [.raw "404 page not found"] }

/-! ## `internal/controller/health_controller.go` -/

/-- The outcome of one service probe: the request could not be built, could not
be sent, or was answered with a status code. -/
inductive Probe where
  | requestError (err : String)
  | sendError (err : String)
  | response (statusCode : Nat)

/-- The entry of `serviceStatuses` for one service; the fields that hold clock
readings (`responseTime`, `lastCheckedAt`) are left out. -/
structure ServiceStatus where
  status : String
  statusCode : Nat
  error : String

/-- The body of the probe goroutine. -/
def probeService : Probe → ServiceStatus
  | .requestError err => { status := "down", statusCode := 0, error := err }
  | .sendError err => { status := "down", statusCode := 0, error := err }
  | .response statusCode =>
    if statusCode ≠ 200 then
      { status := "degraded", statusCode := statusCode, error := "Non-200 status code" }
    else { status := "up", statusCode := statusCode, error := "" }

/-- The status of the cache from the result of `Ping` (`none`: no error). -/
def redisStatus (ping : Option String) : String :=
  match ping with
  | some _ => "down"
  | none => "up"

/-- The loop over `serviceStatuses` with its `break`, in the order the map
happens to be visited. -/
def scanServices (overallStatus : String) : List (String × ServiceStatus) → String
  | [] => overallStatus
  | (_, status) :: rest =>
    if status.status = "down" then "degraded" else scanServices overallStatus rest

/-- The overall status of `CheckHealth`. -/
def overallStatus (redisStatus : String) (serviceStatuses : List (String × ServiceStatus)) :
    String :=
  let overallStatus := if redisStatus ≠ "up" then "degraded" else "up"
  scanServices overallStatus serviceStatuses

/-- The status that `CheckHealth` reports for a ping result and the probe
outcomes of the registered services. -/
def healthStatus (ping : Option String) (probes : List (String × Probe)) : String :=
  overallStatus (redisStatus ping) (probes.map fun p => (p.1, probeService p.2))

/-- The document that `CheckHealth` hands to `response.Success`; `statusText` is
`http.StatusText`. The document carries no `timestamp`. -/
def healthDocument (statusText : Nat → String) (ping : Option String)
    (probes : List (String × Probe)) : Json :=
  let serviceStatuses := probes.map fun p => (p.1, probeService p.2)
  let services : List (String × Json) := serviceStatuses.map fun s =>
    (s.1, Json.obj [("error", .str s.2.error), ("status", .str s.2.status),
      ("statusCode", .str (statusText s.2.statusCode))])
  .obj [
    ("dependencies", .obj [
      ("redis", .obj [("error", .str (ping.getD "")), ("status", .str (redisStatus ping))]),
      ("services", .obj services)]),
    ("status", .str (healthStatus ping probes)),
    ("version", .str "1.0.0")]

/-- `CheckHealth`, given the result of the ping and the outcomes of the probes. -/
def CheckHealth (statusText : Nat → String) (ping : Option String)
    (probes : List (String × Probe)) (c : Context) : Context :=
  response.Success c (healthDocument statusText ping probes)

/-! ## `internal/middleware/auth_middleware.go` -/

def BEARER_PREFIX : String := "Bearer"

/-- The pieces of a list of characters between the occurrences of `sep`. -/
def splitOn (sep : Char) : List Char → List (List Char)
  | [] => [[]]
  | c :: cs =>
    if c = sep then [] :: splitOn sep cs
    else
      match splitOn sep cs with
      | [] => [[c]]
      | p :: ps => (c :: p) :: ps

/-- `strings.Split(s, sep)` for a separator of one ASCII character: the pieces of
`s` between the separators, `[""]` for the empty string. -/
def Split (s : String) (sep : Char) : List String :=
  (splitOn sep s.data).map String.mk

def extractToken (authHeader : String) : Except String String :=
  match Split authHeader ' ' with
  | [scheme, token] =>
    if scheme ≠ BEARER_PREFIX then .error "invalid authorization header format"
    else if token = "" then .error "token is required"
    else .ok token
  | _ => .error "invalid authorization header format"

/-- The claims of a token (the registered claims are not looked at by the code). -/
structure JWTClaims where
  UserID : String

/-- A parsed `jwt.Token`: its `Valid` flag and its claims, `none` when they are not
`*JWTClaims`. -/
structure Token where
  Valid : Bool
  Claims : Option JWTClaims

structure AuthConfig where
  JWTSecret : String

/-- `ValidateToken`. `parseWithClaims token secret` is `jwt.ParseWithClaims` with the
key function of the code, which accepts HMAC signing methods only and hands out the
secret. -/
def ValidateToken (auth : AuthConfig) (parseWithClaims : String → String → Except String Token)
    (tokenString : String) : Except String JWTClaims :=
  match parseWithClaims tokenString auth.JWTSecret with
  | .error _ => .error "invalid or expired token"
  | .ok token =>
    if !token.Valid then .error "invalid token"
    else
      match token.Claims with
      | none => .error "failed to extract token claims"
      | some claims => .ok claims

/-- `c.Set(key, value)`. -/
def Context.Set (c : Context) (key value : String) : Context :=
  { c with Keys := fun k => if k = key then some value else c.Keys k }

def HandleAuth (auth : AuthConfig) (parseWithClaims : String → String → Except String Token)
    (handlers : List HandlerFunc) (c : Context) : Context :=
  let authHeader := c.Request.GetHeader "Authorization"
  if authHeader = "" then
    (response.Error c 401 "Authorization header is required").Abort
  else
    match extractToken authHeader with
    | .error err => (response.Error c 401 err).Abort
    | .ok tokenString =>
      match ValidateToken auth parseWithClaims tokenString with
      | .error err => (response.Error c 401 err).Abort
      | .ok claims => Context.Next handlers (c.Set "user_id" claims.UserID)

/-- The probe outcome with every answer taken as a 200: a service that is
`degraded` becomes `up`, a service that is `down` stays `down`. -/
def asHealthy : Probe → Probe
  | .response _ => .response 200
  | p => p

/-! ## Specification predicates -/

/-- The middleware hands the request to the rest of the chain as it found it:
the result is that of `c.Next()` on a context whose chain position, status
line and body are those of `c`. -/
def Admitted (handlers : List HandlerFunc) (c out : Context) : Prop :=
  ∃ c1 : Context, out = Context.Next handlers c1 ∧ c1.index = c.index ∧ c1.trace = c.trace ∧
    c1.Writer.status = c.Writer.status ∧ c1.Writer.written = c.Writer.written ∧
    c1.Writer.body = c.Writer.body

/-- The rate limiter turns the request away: status 429, no quota left, the chain
aborted and no handler called. -/
def RateLimited (c out : Context) : Prop :=
  out.Writer.status = 429 ∧ out.Writer.header "X-RateLimit-Remaining" = some ["0"] ∧
    out.IsAborted = true ∧ out.trace = c.trace

/-- The idempotency middleware turns the request away as a conflict: status 409
with the error envelope as body, the chain aborted, no handler called and the data
of the store untouched. -/
def Conflict (c out : Context) : Prop :=
  out.Writer.status = 409 ∧
    out.Writer.body = c.Writer.body ++ [.json (NewResponse 409
      "A request with the same idempotency key is already being processed" none).toJson] ∧
    out.IsAborted = true ∧ out.trace = c.trace ∧ out.redis.data = c.redis.data

/-- The proxy answers that the service is unknown: status 404 with the error
envelope as body, the chain aborted and nothing sent to an upstream. -/
def ServiceNotFound (serviceName : String) (c out : Context) : Prop :=
  out.Writer.status = 404 ∧
    out.Writer.body = c.Writer.body ++
      [.json (NewResponse 404 ("Service \x27" ++ serviceName ++ "\x27 not found") none).toJson] ∧
    out.IsAborted = true ∧ out.outbound = c.outbound

/-- The status list with every `degraded` entry turned into `up`. -/
def degradedAsUp (serviceStatuses : List (String × ServiceStatus)) :
    List (String × ServiceStatus) :=
  serviceStatuses.map fun s =>
    (s.1, if s.2.status = "degraded" then { s.2 with status := "up" } else s.2)

/-- No handler of the chain changes what the store holds under `key`. -/
def KeepsKey (handlers : List HandlerFunc) (key : String) : Prop :=
  ∀ h ∈ handlers, ∀ x : Context, (h x).redis.data key = x.redis.data key

/-- The field `name` of a JSON object. -/
def Json.field (name : String) : Json → Option Json
  | .obj fields => (fields.find? fun f => f.1 == name).map Prod.snd
  | _ => none

/-- The names of the fields of a JSON object. -/
def Json.fieldNames : Json → List String
  | .obj fields => fields.map Prod.fst
  | _ => []

/-- The standard error envelope for a response of status `status`: an object
`{status_code, error, data?}` whose `status_code` is the status and whose `error`
is a message that is not empty. -/
def IsEnvelope (status : Nat) (j : Json) : Prop :=
  j.field "status_code" = some (.int status) ∧
    (∃ msg : String, msg ≠ "" ∧ j.field "error" = some (.str msg)) ∧
    ∀ name ∈ j.fieldNames, name = "status_code" ∨ name = "error" ∨ name = "data"

/-- A failure response of status `code` with the error envelope as its body; the
chain is aborted and no handler called. -/
def ErrorEnvelope (code : Nat) (c out : Context) : Prop :=
  out.Writer.status = code ∧
    (∃ j : Json, out.Writer.body = c.Writer.body ++ [.json j] ∧ IsEnvelope out.Writer.status j) ∧
    out.IsAborted = true ∧ out.trace = c.trace

/-- The auth guard turns the request away: a 401 with the error envelope, the chain
aborted, no handler called and no identity attached. -/
def Unauthorized (c out : Context) : Prop :=
  ErrorEnvelope 401 c out ∧ out.Keys = c.Keys

/-- The shape `Bearer <token>`: the scheme, one space, and a token that is not empty
and holds no space. -/
def IsBearer (h t : String) : Prop :=
  h = "Bearer " ++ t ∧ t ≠ "" ∧ ' ' ∉ t.data

/-- The body that `HandleRateLimit` writes with a 429: the `gin.H` with the keys
`error` and `retry_after`. -/
def rateLimitBody (ttl : Int) : Json :=
  .obj [("error", .str "Rate limit exceeded"), ("retry_after", .seconds ttl)]

/-- The 429 of the rate limiter: the status, a body that is the `gin.H` document,
which has a message under `error` and no field `status_code`, and the chain aborted
without a handler being called. -/
def RateLimitResponse (c out : Context) : Prop :=
  out.Writer.status = 429 ∧
    (∃ ttl : Int, out.Writer.body = c.Writer.body ++ [.json (rateLimitBody ttl)] ∧
      (rateLimitBody ttl).field "error" = some (.str "Rate limit exceeded") ∧
      (rateLimitBody ttl).field "status_code" = none) ∧
    out.IsAborted = true ∧ out.trace = c.trace

/-! ## Sample values -/

/-- A POST to /orders from 10.0.0.1 with an empty body and no headers. -/
def sampleRequest : Request :=
  { Method := "POST", Path := "/orders", Host := "gateway", Scheme := "http"
    Header := fun _ => [], Body := some (.ok "") }

def emptyRedis : Redis :=
  { data := fun _ => none, log := [] }

/-- The writer of a response nothing has been written to. -/
def freshWriter : ResponseWriter :=
  { status := 200, written := false, header := fun _ => none, body := [], captured := [] }

/-- The sample request at the head of a chain, on an empty store. -/
def sampleContext : Context :=
  { Request := sampleRequest, Keys := fun _ => none, ClientIP := "10.0.0.1"
    Writer := freshWriter, index := 0, redis := emptyRedis, clock := 0
    outbound := [], trace := [] }

/-- A configuration with the given limit, a period of one minute and no service. -/
def sampleConfig (limit : Int) : Config :=
  { Ratelimit := { Limit := limit, Period := 60 * 1000000000 }
    FowardServiceUrl := fun _ => none }

/-- A cache that answers every command. -/
def noFaults : Nat → Bool := fun _ => false

/-- A cache that cannot be reached. -/
def allFaults : Nat → Bool := fun _ => true

/-- The sample request with the header `X-Idempotency-Key: k1`. -/
def keyedRequest : Request :=
  { sampleRequest with Header := fun k => if k = "X-Idempotency-Key" then ["k1"] else [] }

def keyedContext : Context :=
  { sampleContext with Request := keyedRequest }

/-- A handler that answers 201 with the body `created`. -/
def created : HandlerFunc := fun c =>
  { c with Writer := (c.Writer.WriteHeader 201).Write [.raw "created"] }

/-- A handler that answers 500. -/
def failing : HandlerFunc := fun c =>
  { c with Writer := (c.Writer.WriteHeader 500).Write [.raw "error"] }

/-- A chain with a middleware at position 0 and one handler after it. The entry
at position 0 stands for the middleware under study, which `Next` does not call. -/
def chainOf (h : HandlerFunc) : List HandlerFunc := [fun c => c, h]

/-- A store in which another request holds the lock of key `k1` for POST. -/
def heldLock : Redis :=
  { data := fun k => if k = "idempotency_lock:POST:k1" then some ⟨.int 1, some LOCK_TTL⟩ else none
    log := [] }

/-- A stand-in for the hex SHA-256 in sample runs. -/
def sampleHash : String → String := fun s => s

/-- The context the handler after the middleware receives when `keyedContext` is
processed on the empty store by a cache without errors: the lock is set and the
capturing writer is in place. -/
def processingContext : Context :=
  { keyedContext with
    index := 1
    redis := (Cache.Set noFaults
      (Cache.Get Value.toResponse? noFaults emptyRedis (idempotencyCacheKey "POST" "k1")).2
      (idempotencyLockKey "POST" "k1") (.int 1) LOCK_TTL).2
    Writer := { freshWriter with captured := [] } }

/-- A token parser that accepts the token `good` for user `u1` and nothing else. -/
def sampleParse : String → String → Except String Token := fun token _ =>
  if token = "good" then .ok { Valid := true, Claims := some { UserID := "u1" } }
  else .error "signature is invalid"

def sampleAuth : AuthConfig :=
  { JWTSecret := "secret" }

/-- The sample request with the given `Authorization` header. -/
def authContext (authorization : String) : Context :=
  { sampleContext with
    Request := { sampleRequest with
      Header := fun k => if k = "Authorization" then [authorization] else [] } }

/-- A registry with the one service `orders` at `http://upstream:9000`. -/
def ordersConfig : Config :=
  { Ratelimit := { Limit := 5, Period := 60 * 1000000000 }
    FowardServiceUrl := fun name => if name = "orders" then some "http://upstream:9000" else none }

/-- A URL parser that knows the upstream of `orders` and rejects everything else. -/
def sampleUrlParse : String → Except String URL := fun s =>
  if s = "http://upstream:9000" then .ok { Scheme := "http", Host := "upstream:9000", Path := "" }
  else .error "parse error"

/-- A POST with the same `X-Idempotency-Key: k1` as `keyedContext`, but to another
path, from another client, for the authenticated user `u2` and with another body. -/
def otherKeyedContext : Context :=
  { sampleContext with
    Request := { keyedRequest with Path := "/payments", Body := some (.ok "amount=5") }
    Keys := fun k => if k = "user_id" then some "u2" else none
    ClientIP := "10.0.0.2" }

/-- An upstream that answers every request with 200 and the body `ok`. -/
def sampleUpstream : OutRequest → RoundTrip := fun _ =>
  .response 200 (fun _ => []) "ok"

/-- A GET of the path `path` from the sample client. -/
def pathContext (path : String) : Context :=
  { sampleContext with Request := { sampleRequest with Method := "GET", Path := path } }

/-! ## The handler chain -/

theorem nextLoop_of_le (handlers : List HandlerFunc) (c : Context)
    (h : handlers.length ≤ c.index) : nextLoop handlers c = c := by
  rw [nextLoop]
  simp [Nat.not_lt.mpr h]

theorem nextLoop_step (handlers : List HandlerFunc) (c : Context)
    (h : c.index < handlers.length) :
    nextLoop handlers c =
      nextLoop handlers
        { (handlers.get ⟨c.index, h⟩) c with
          index := max c.index ((handlers.get ⟨c.index, h⟩) c).index + 1
          trace := c.trace ++ [c.index] } := by
  rw [nextLoop]
  simp [h]

/-- An induction principle that follows the loop. -/
theorem nextLoop_induction (handlers : List HandlerFunc) (P : Context → Context → Prop)
    (stop : ∀ c, handlers.length ≤ c.index → P c c)
    (step : ∀ c (h : c.index < handlers.length) out,
      P { (handlers.get ⟨c.index, h⟩) c with
          index := max c.index ((handlers.get ⟨c.index, h⟩) c).index + 1
          trace := c.trace ++ [c.index] } out → P c out) :
    ∀ c, P c (nextLoop handlers c) := by
  intro c
  generalize hn : handlers.length - c.index = n
  induction n using Nat.strong_induction_on generalizing c with
  | _ n ih =>
    by_cases h : c.index < handlers.length
    · rw [nextLoop_step handlers c h]
      apply step c h
      apply ih (handlers.length - (max c.index ((handlers.get ⟨c.index, h⟩) c).index + 1))
      · omega
      · rfl
    · rw [nextLoop_of_le handlers c (Nat.not_lt.mp h)]
      exact stop c (Nat.not_lt.mp h)

/-- The loop ends at or after the end of the chain. -/
theorem nextLoop_index (handlers : List HandlerFunc) (c : Context) :
    handlers.length ≤ (nextLoop handlers c).index ∧ c.index ≤ (nextLoop handlers c).index := by
  refine nextLoop_induction handlers (fun c out => handlers.length ≤ out.index ∧ c.index ≤ out.index)
    ?_ ?_ c
  · intro c h
    exact ⟨h, le_refl _⟩
  · intro c h out ih
    simp only at ih
    exact ⟨ih.1, by omega⟩

/-- The loop calls the handler at the current position first and only later
positions after it. -/
theorem nextLoop_trace (handlers : List HandlerFunc) (c : Context) :
    ∃ l : List Nat, (nextLoop handlers c).trace = c.trace ++ l ∧ (∀ x ∈ l, c.index ≤ x) ∧
      l.Nodup ∧ (c.index < handlers.length → c.index ∈ l) := by
  refine nextLoop_induction handlers (fun c out => ∃ l : List Nat, out.trace = c.trace ++ l ∧
    (∀ x ∈ l, c.index ≤ x) ∧ l.Nodup ∧ (c.index < handlers.length → c.index ∈ l)) ?_ ?_ c
  · intro c h
    exact ⟨[], by simp, by simp, by simp, fun h1 => absurd h1 (Nat.not_lt.mpr h)⟩
  · intro c h out ih
    obtain ⟨l, h1, h2, h3, _⟩ := ih
    simp only at h1 h2
    refine ⟨c.index :: l, ?_, ?_, ?_, ?_⟩
    · rw [h1]
      simp
    · intro x hx
      rcases List.mem_cons.mp hx with rfl | hx
      · exact le_refl _
      · have := h2 x hx
        omega
    · refine List.nodup_cons.mpr ⟨?_, h3⟩
      intro hmem
      have := h2 _ hmem
      omega
    · intro _
      exact List.mem_cons_self _ _

/-- A second `c.Next()` after the chain has run calls no handler. -/
theorem Next_of_le (handlers : List HandlerFunc) (c : Context)
    (h : handlers.length ≤ c.index) :
    Context.Next handlers c = { c with index := c.index + 1 } := by
  unfold Context.Next
  apply nextLoop_of_le
  simp only
  omega

theorem Next_index (handlers : List HandlerFunc) (c : Context) :
    handlers.length ≤ (Context.Next handlers c).index := by
  unfold Context.Next
  exact (nextLoop_index handlers _).1

theorem nextLoop_keepsKey (handlers : List HandlerFunc) (key : String)
    (hk : KeepsKey handlers key) (c : Context) :
    (nextLoop handlers c).redis.data key = c.redis.data key := by
  refine nextLoop_induction handlers (fun c out => out.redis.data key = c.redis.data key) ?_ ?_ c
  · intro c _
    rfl
  · intro c h out ih
    simp only at ih
    rw [ih]
    exact hk _ (List.get_mem _ _ _) c

theorem Next_keepsKey (handlers : List HandlerFunc) (key : String)
    (hk : KeepsKey handlers key) (c : Context) :
    (Context.Next handlers c).redis.data key = c.redis.data key := by
  unfold Context.Next
  rw [nextLoop_keepsKey handlers key hk]

/-! ## The response writer -/

theorem WriteHeader_fields (w : ResponseWriter) (code : Nat) :
    (w.WriteHeader code).written = w.written ∧ (w.WriteHeader code).header = w.header ∧
      (w.WriteHeader code).body = w.body ∧ (w.WriteHeader code).captured = w.captured := by
  unfold ResponseWriter.WriteHeader
  split
  · split <;> simp
  · simp

theorem WriteHeader_status (w : ResponseWriter) (code : Nat) (hw : w.written = false)
    (hc : 0 < code) : (w.WriteHeader code).status = code := by
  unfold ResponseWriter.WriteHeader
  by_cases h : w.status = code
  · simp [h]
  · simp [h, hw, hc]

theorem writeContentType_fields (w : ResponseWriter) (value : String) :
    (w.writeContentType value).status = w.status ∧
      (w.writeContentType value).written = w.written ∧
      (w.writeContentType value).body = w.body ∧
      (w.writeContentType value).captured = w.captured := by
  unfold ResponseWriter.writeContentType
  split <;> simp

theorem writeContentType_header (w : ResponseWriter) (value k : String)
    (hk : k ≠ "Content-Type") : (w.writeContentType value).header k = w.header k := by
  unfold ResponseWriter.writeContentType
  split <;> simp [hk]

theorem Header_fields (c : Context) (key value : String) :
    (c.Header key value).index = c.index ∧ (c.Header key value).trace = c.trace ∧
      (c.Header key value).redis = c.redis ∧ (c.Header key value).outbound = c.outbound ∧
      (c.Header key value).Writer.status = c.Writer.status ∧
      (c.Header key value).Writer.written = c.Writer.written ∧
      (c.Header key value).Writer.body = c.Writer.body ∧
      (c.Header key value).Writer.captured = c.Writer.captured := by
  unfold Context.Header
  split <;> simp

theorem Header_header (c : Context) (key value k : String) :
    (c.Header key value).Writer.header k =
      if k = key then (if value = "" then none else some [value]) else c.Writer.header k := by
  unfold Context.Header
  split <;> rename_i h <;> simp [h]

theorem Render_fields (c : Context) (code : Nat) (contentType : String) (data : Bytes) :
    (c.Render code contentType data).index = c.index ∧
      (c.Render code contentType data).trace = c.trace ∧
      (c.Render code contentType data).redis = c.redis ∧
      (c.Render code contentType data).outbound = c.outbound := by
  unfold Context.Render
  split <;> simp

theorem Render_status (c : Context) (code : Nat) (contentType : String) (data : Bytes)
    (hw : c.Writer.written = false) (hc : 0 < code) :
    (c.Render code contentType data).Writer.status = code := by
  unfold Context.Render
  split
  · simp [ResponseWriter.Write, (writeContentType_fields _ _).1, WriteHeader_status _ _ hw hc]
  · simp [ResponseWriter.WriteHeaderNow, (writeContentType_fields _ _).1,
      WriteHeader_status _ _ hw hc]

theorem Render_header (c : Context) (code : Nat) (contentType : String) (data : Bytes)
    (k : String) (hk : k ≠ "Content-Type") :
    (c.Render code contentType data).Writer.header k = c.Writer.header k := by
  unfold Context.Render
  split
  · simp [ResponseWriter.Write, writeContentType_header _ _ _ hk, (WriteHeader_fields _ _).2.1]
  · simp [ResponseWriter.WriteHeaderNow, writeContentType_header _ _ _ hk,
      (WriteHeader_fields _ _).2.1]

theorem Render_body (c : Context) (code : Nat) (contentType : String) (data : Bytes) :
    (c.Render code contentType data).Writer.body =
      if bodyAllowedForStatus code then c.Writer.body ++ data else c.Writer.body := by
  unfold Context.Render
  split
  · simp [ResponseWriter.Write, (writeContentType_fields _ _).2.2.1,
      (WriteHeader_fields _ _).2.2.1]
  · simp [ResponseWriter.WriteHeaderNow, (writeContentType_fields _ _).2.2.1,
      (WriteHeader_fields _ _).2.2.1]

/-! ## The rate limiter -/

theorem checkRateLimit_present (cfg : Config) (faults : Nat → Bool) (r : Redis) (key : String)
    (n : Int) (t : Option Int) (hf : ∀ k, faults k = false) (hd : r.data key = some ⟨.int n, t⟩) :
    checkRateLimit cfg faults r key =
      (.ok (n, decide (cfg.Ratelimit.Limit ≤ n)), r.record (.get key)) := by
  simp [checkRateLimit, Cache.Get, hf, hd, Value.toInt?]

theorem checkRateLimit_absent (cfg : Config) (faults : Nat → Bool) (r : Redis) (key : String)
    (hf : ∀ k, faults k = false) (hd : r.data key = none) :
    ∃ r2 : Redis, checkRateLimit cfg faults r key = (.ok (1, decide (cfg.Ratelimit.Limit ≤ 1)), r2) ∧
      r2.data key = some ⟨.int 1, if 0 < cfg.Ratelimit.Period then some cfg.Ratelimit.Period else none⟩ := by
  simp [checkRateLimit, Cache.Get, Cache.Set, hf, hd, Redis.record]

/-- What `HandleRateLimit` does once the check reports that the limit is reached. -/
theorem HandleRateLimit_exceeded (cfg : Config) (faults : Nat → Bool) (handlers : List HandlerFunc)
    (c : Context) (count : Int) (r1 : Redis)
    (hc : checkRateLimit cfg faults c.redis (rateLimitKey c) = (.ok (count, true), r1)) :
    (c.Writer.written = false → (HandleRateLimit cfg faults handlers c).Writer.status = 429) ∧
      (HandleRateLimit cfg faults handlers c).Writer.header RATELIMIT_REMAINING = some ["0"] ∧
      (HandleRateLimit cfg faults handlers c).index = abortIndex ∧
      (HandleRateLimit cfg faults handlers c).trace = c.trace ∧
      (HandleRateLimit cfg faults handlers c).redis.data = r1.data := by
  simp only [HandleRateLimit, hc, if_true]
  refine ⟨?_, ?_, ?_, ?_, ?_⟩
  · intro hw
    simp only [Context.Abort, Context.JSON]
    apply Render_status
    · simp [(Header_fields _ _ _).2.2.2.2.2.1, hw]
    · decide
  · simp only [Context.Abort, Context.JSON]
    rw [Render_header _ _ _ _ _ (by decide), Header_header, Header_header]
    simp [RATELIMIT_REMAINING, RATELIMIT_RESET]
  · simp [Context.Abort]
  · simp [Context.Abort, Context.JSON, (Render_fields _ _ _ _).2.1, (Header_fields _ _ _).2.1]
  · simp [Context.Abort, Context.JSON, (Render_fields _ _ _ _).2.2.1, (Header_fields _ _ _).2.2.1]
    unfold Cache.TTL
    split
    · simp [Redis.record]
    · split
      · simp [Redis.record]
      · split <;> simp [Redis.record]

theorem TTL_data (faults : Nat → Bool) (r : Redis) (key : String) :
    (Cache.TTL faults r key).2.data = r.data := by
  unfold Cache.TTL
  split
  · simp [Redis.record]
  · split
    · simp [Redis.record]
    · split <;> simp [Redis.record]

/-- What `HandleRateLimit` does once the check reports a count below the limit. -/
theorem HandleRateLimit_below (cfg : Config) (faults : Nat → Bool) (handlers : List HandlerFunc)
    (c : Context) (count : Int) (r1 : Redis)
    (hc : checkRateLimit cfg faults c.redis (rateLimitKey c) = (.ok (count, false), r1)) :
    ∃ c1 : Context, HandleRateLimit cfg faults handlers c = Context.Next handlers c1 ∧
      c1.index = c.index ∧ c1.trace = c.trace ∧ c1.Writer.status = c.Writer.status ∧
      c1.Writer.written = c.Writer.written ∧ c1.Writer.body = c.Writer.body ∧
      c1.Writer.header RATELIMIT_REMAINING =
        (if toString (cfg.Ratelimit.Limit - count - 1) = "" then none
          else some [toString (cfg.Ratelimit.Limit - count - 1)]) ∧
      c1.redis.data = (Cache.Incr faults r1 (rateLimitKey c)).2.data := by
  simp only [HandleRateLimit, hc]
  refine ⟨_, rfl, ?_⟩
  split
  · simp only [(Header_fields _ _ _).1, (Header_fields _ _ _).2.1, (Header_fields _ _ _).2.2.1,
      (Header_fields _ _ _).2.2.2.2.1, (Header_fields _ _ _).2.2.2.2.2.1,
      (Header_fields _ _ _).2.2.2.2.2.2.1, Header_header, TTL_data]
    simp [RATELIMIT_REMAINING, RATELIMIT_RESET, RATELIMIT_HEADER]
  · simp only [(Header_fields _ _ _).1, (Header_fields _ _ _).2.1, (Header_fields _ _ _).2.2.1,
      (Header_fields _ _ _).2.2.2.2.1, (Header_fields _ _ _).2.2.2.2.2.1,
      (Header_fields _ _ _).2.2.2.2.2.2.1, Header_header, TTL_data]
    simp [RATELIMIT_REMAINING, RATELIMIT_RESET, RATELIMIT_HEADER]

/-- What `HandleRateLimit` does once the check fails. -/
theorem HandleRateLimit_error (cfg : Config) (faults : Nat → Bool) (handlers : List HandlerFunc)
    (c : Context) (err : CacheError) (r1 : Redis)
    (hc : checkRateLimit cfg faults c.redis (rateLimitKey c) = (.error err, r1)) :
    HandleRateLimit cfg faults handlers c = Context.Next handlers { c with redis := r1 } := by
  simp only [HandleRateLimit, hc]

theorem rateLimitKey_redis (c : Context) (r : Redis) :
    rateLimitKey { c with redis := r } = rateLimitKey c := rfl

/-- The counter after one request that finds it at `n`. -/
theorem HandleRateLimit_counter (cfg : Config) (faults : Nat → Bool)
    (hf : ∀ k, faults k = false) (handlers : List HandlerFunc) (c : Context)
    (hk : KeepsKey handlers (rateLimitKey c)) (n : Int) (t : Option Int)
    (hd : c.redis.data (rateLimitKey c) = some ⟨.int n, t⟩) :
    (HandleRateLimit cfg faults handlers c).redis.data (rateLimitKey c) =
      some ⟨.int (if cfg.Ratelimit.Limit ≤ n then n else n + 1), t⟩ := by
  have hc := checkRateLimit_present cfg faults c.redis (rateLimitKey c) n t hf hd
  by_cases hl : cfg.Ratelimit.Limit ≤ n
  · simp only [hl, decide_True] at hc
    rw [(HandleRateLimit_exceeded cfg faults handlers c n _ hc).2.2.2.2]
    simp [Redis.record, hd, hl]
  · simp only [hl, decide_False] at hc
    obtain ⟨c1, h1, -, -, -, -, -, -, h2⟩ := HandleRateLimit_below cfg faults handlers c n _ hc
    rw [h1, Next_keepsKey handlers _ hk, h2]
    simp [Cache.Incr, hf, Redis.record, hd, hl]

/-- The counter after the first request of a window. -/
theorem HandleRateLimit_first (cfg : Config) (faults : Nat → Bool)
    (hf : ∀ k, faults k = false) (handlers : List HandlerFunc) (c : Context)
    (hk : KeepsKey handlers (rateLimitKey c))
    (hd : c.redis.data (rateLimitKey c) = none) :
    (HandleRateLimit cfg faults handlers c).redis.data (rateLimitKey c) =
      some ⟨.int (if cfg.Ratelimit.Limit ≤ 1 then 1 else 2),
        if 0 < cfg.Ratelimit.Period then some cfg.Ratelimit.Period else none⟩ := by
  obtain ⟨r2, hc, h2⟩ := checkRateLimit_absent cfg faults c.redis (rateLimitKey c) hf hd
  by_cases hl : cfg.Ratelimit.Limit ≤ 1
  · simp only [hl, decide_True] at hc
    rw [(HandleRateLimit_exceeded cfg faults handlers c 1 _ hc).2.2.2.2]
    simp [h2, hl]
  · simp only [hl, decide_False] at hc
    obtain ⟨c1, h1, -, -, -, -, -, -, h3⟩ := HandleRateLimit_below cfg faults handlers c 1 _ hc
    rw [h1, Next_keepsKey handlers _ hk, h3]
    simp [Cache.Incr, hf, h2, hl]

/-- The counter after a run of requests from one identifier that starts with the
counter at `n`. -/
theorem rateLimitStore_counter (cfg : Config) (faults : Nat → Bool)
    (hf : ∀ k, faults k = false) (handlers : List HandlerFunc) (id : String)
    (hk : KeepsKey handlers ("ratelimit:" ++ id)) (reqs : List Context)
    (hid : ∀ x ∈ reqs, rateLimitIdentifier x = id) (r : Redis) (n : Int) (t : Option Int)
    (hn : n ≤ cfg.Ratelimit.Limit) (hd : r.data ("ratelimit:" ++ id) = some ⟨.int n, t⟩) :
    (rateLimitStore cfg faults handlers reqs r).data ("ratelimit:" ++ id) =
      some ⟨.int (min (n + reqs.length) cfg.Ratelimit.Limit), t⟩ := by
  induction reqs generalizing r n with
  | nil => simp [rateLimitStore, hd, hn]
  | cons c cs ih =>
    have hc : rateLimitKey { c with redis := r } = "ratelimit:" ++ id := by
      rw [rateLimitKey_redis, rateLimitKey, hid c (List.mem_cons_self _ _)]
    have hstep := HandleRateLimit_counter cfg faults hf handlers { c with redis := r }
      (by rw [hc]; exact hk) n t (by rw [hc]; exact hd)
    rw [hc] at hstep
    simp only [rateLimitStore]
    by_cases hl : cfg.Ratelimit.Limit ≤ n
    · rw [if_pos hl] at hstep
      rw [ih (fun x hx => hid x (List.mem_cons_of_mem _ hx)) _ _ hn hstep]
      have e : min (n + (cs.length : Int)) cfg.Ratelimit.Limit =
          min (n + ((c :: cs).length : Int)) cfg.Ratelimit.Limit := by
        simp only [List.length_cons, Nat.cast_add, Nat.cast_one]
        omega
      rw [e]
    · rw [if_neg hl] at hstep
      rw [ih (fun x hx => hid x (List.mem_cons_of_mem _ hx)) _ _ (by omega) hstep]
      have e : min (n + 1 + (cs.length : Int)) cfg.Ratelimit.Limit =
          min (n + ((c :: cs).length : Int)) cfg.Ratelimit.Limit := by
        simp only [List.length_cons, Nat.cast_add, Nat.cast_one]
        omega
      rw [e]

/-- C5. Rate limit ceiling: with limit `L ≥ 1`, no cache errors and no expiry, after
`L` requests from one identifier that started without a counter, the next request
from that identifier gets status 429 and `X-RateLimit-Remaining: 0`, the chain is
aborted without any handler being called, and the counter is left as it was. -/
theorem rate_limit_ceiling (cfg : Config) (L : Nat) (hL : 1 ≤ L)
    (hcfg : cfg.Ratelimit.Limit = (L : Int)) (faults : Nat → Bool)
    (hf : ∀ k, faults k = false) (handlers : List HandlerFunc) (id : String)
    (hk : KeepsKey handlers ("ratelimit:" ++ id)) (reqs : List Context)
    (hlen : reqs.length = L) (hid : ∀ x ∈ reqs, rateLimitIdentifier x = id)
    (c : Context) (hc : rateLimitIdentifier c = id) (hw : c.Writer.written = false)
    (r0 : Redis) (h0 : r0.data ("ratelimit:" ++ id) = none) :
    RateLimited c (HandleRateLimit cfg faults handlers
        { c with redis := rateLimitStore cfg faults handlers reqs r0 }) ∧
      (HandleRateLimit cfg faults handlers
        { c with redis := rateLimitStore cfg faults handlers reqs r0 }).redis.data
          ("ratelimit:" ++ id) =
        (rateLimitStore cfg faults handlers reqs r0).data ("ratelimit:" ++ id) ∧
      ∃ t, (rateLimitStore cfg faults handlers reqs r0).data ("ratelimit:" ++ id) =
        some ⟨.int L, t⟩ := by
  -- the counter after the `L` requests
  have hstore : ∃ t, (rateLimitStore cfg faults handlers reqs r0).data ("ratelimit:" ++ id) =
      some ⟨.int L, t⟩ := by
    cases reqs with
    | nil => simp at hlen; omega
    | cons x xs =>
      have hx : rateLimitKey { x with redis := r0 } = "ratelimit:" ++ id := by
        rw [rateLimitKey_redis, rateLimitKey, hid x (List.mem_cons_self _ _)]
      have h1 := HandleRateLimit_first cfg faults hf handlers { x with redis := r0 }
        (by rw [hx]; exact hk) (by rw [hx]; exact h0)
      rw [hx] at h1
      refine ⟨if 0 < cfg.Ratelimit.Period then some cfg.Ratelimit.Period else none, ?_⟩
      simp only [rateLimitStore]
      have hle : (if cfg.Ratelimit.Limit ≤ 1 then (1 : Int) else 2) ≤ cfg.Ratelimit.Limit := by
        by_cases h : cfg.Ratelimit.Limit ≤ 1
        · rw [if_pos h]; omega
        · rw [if_neg h]; omega
      rw [rateLimitStore_counter cfg faults hf handlers id hk xs
        (fun y hy => hid y (List.mem_cons_of_mem _ hy)) _ _ _ hle h1]
      simp only [List.length_cons] at hlen
      have e : min ((if cfg.Ratelimit.Limit ≤ 1 then (1 : Int) else 2) + (xs.length : Int))
          cfg.Ratelimit.Limit = (L : Int) := by
        by_cases h : cfg.Ratelimit.Limit ≤ 1
        · rw [if_pos h]; omega
        · rw [if_neg h]; omega
      rw [e]
  obtain ⟨t, ht⟩ := hstore
  have hkey : rateLimitKey { c with redis := rateLimitStore cfg faults handlers reqs r0 } =
      "ratelimit:" ++ id := by
    rw [rateLimitKey_redis, rateLimitKey, hc]
  have hchk := checkRateLimit_present cfg faults (rateLimitStore cfg faults handlers reqs r0)
    ("ratelimit:" ++ id) L t hf ht
  rw [hcfg] at hchk
  simp only [le_refl, decide_True] at hchk
  have hrej := HandleRateLimit_exceeded cfg faults handlers
    { c with redis := rateLimitStore cfg faults handlers reqs r0 } L _ (by rw [hkey]; exact hchk)
  refine ⟨⟨hrej.1 hw, hrej.2.1, ?_, hrej.2.2.2.1⟩, ?_, t, ht⟩
  · simp [Context.IsAborted, hrej.2.2.1]
  · rw [hrej.2.2.2.2]
    simp [Redis.record]

theorem rate_limit_ceiling_witness :
    RateLimited sampleContext (HandleRateLimit (sampleConfig 2) noFaults []
        { sampleContext with
          redis := rateLimitStore (sampleConfig 2) noFaults [] [sampleContext, sampleContext]
            emptyRedis }) ∧
      (HandleRateLimit (sampleConfig 2) noFaults []
        { sampleContext with
          redis := rateLimitStore (sampleConfig 2) noFaults [] [sampleContext, sampleContext]
            emptyRedis }).redis.data ("ratelimit:" ++ "10.0.0.1") =
        (rateLimitStore (sampleConfig 2) noFaults [] [sampleContext, sampleContext]
          emptyRedis).data ("ratelimit:" ++ "10.0.0.1") ∧
      ∃ t, (rateLimitStore (sampleConfig 2) noFaults [] [sampleContext, sampleContext]
          emptyRedis).data ("ratelimit:" ++ "10.0.0.1") = some ⟨.int (2 : Nat), t⟩ :=
  rate_limit_ceiling (sampleConfig 2) 2 (by decide) rfl noFaults (fun _ => rfl) []
    "10.0.0.1" (fun h hh => absurd hh (List.not_mem_nil h)) [sampleContext, sampleContext] rfl
    (by
      intro x hx
      simp only [List.mem_cons, List.mem_singleton, List.not_mem_nil, or_false, or_self] at hx
      subst hx
      rfl)
    sampleContext rfl rfl emptyRedis rfl

/-- C6, evaluated. With a limit of 1 the first request of a window (no counter in
the store, a cache without errors) is answered 429 and no handler runs; with a
limit of 5 it is let through with `X-RateLimit-Remaining: 3`, and the counter it
leaves is 2. -/
theorem first_request_counted_twice :
    RateLimited sampleContext (HandleRateLimit (sampleConfig 1) noFaults [] sampleContext) ∧
      Admitted [] sampleContext (HandleRateLimit (sampleConfig 5) noFaults [] sampleContext) ∧
      (HandleRateLimit (sampleConfig 5) noFaults [] sampleContext).Writer.header
        "X-RateLimit-Remaining" = some ["3"] ∧
      (HandleRateLimit (sampleConfig 5) noFaults [] sampleContext).redis.data
        "ratelimit:10.0.0.1" = some ⟨.int 2, some 60000000000⟩ := by
  have hkey : rateLimitKey sampleContext = "ratelimit:10.0.0.1" := by decide
  obtain ⟨r1, hc1, -⟩ := checkRateLimit_absent (sampleConfig 1) noFaults sampleContext.redis
    (rateLimitKey sampleContext) (fun _ => rfl) rfl
  obtain ⟨r5, hc5, hd5⟩ := checkRateLimit_absent (sampleConfig 5) noFaults sampleContext.redis
    (rateLimitKey sampleContext) (fun _ => rfl) rfl
  have e1 : decide ((sampleConfig 1).Ratelimit.Limit ≤ 1) = true := by decide
  have e5 : decide ((sampleConfig 5).Ratelimit.Limit ≤ 1) = false := by decide
  rw [e1] at hc1
  rw [e5] at hc5
  have hrej := HandleRateLimit_exceeded (sampleConfig 1) noFaults [] sampleContext 1 r1 hc1
  obtain ⟨c1, h1, h2, h3, h4, h5, h6, h7, h8⟩ :=
    HandleRateLimit_below (sampleConfig 5) noFaults [] sampleContext 1 r5 hc5
  refine ⟨⟨hrej.1 rfl, hrej.2.1, ?_, hrej.2.2.2.1⟩, ⟨c1, h1, h2, h3, h4, h5, h6⟩, ?_, ?_⟩
  · simp [Context.IsAborted, hrej.2.2.1]
  · rw [h1, Next_of_le [] c1 (Nat.zero_le _)]
    exact h7
  · rw [h1, Next_of_le [] c1 (Nat.zero_le _)]
    simp only [h8, ← hkey]
    simp [Cache.Incr, noFaults, hd5]
    decide

/-- C7. The rate limiter fails open. If the read of the counter fails with an error
other than key-not-found, or the counter is absent and its initialisation fails,
the request goes to the next handler as it came in (no status written, not
aborted). If the check lets the request through, it goes to the next handler
whatever the increment and the TTL query return. -/
theorem rate_limiter_fails_open (cfg : Config) (faults : Nat → Bool)
    (handlers : List HandlerFunc) (c : Context) :
    (((∃ err, (Cache.Get Value.toInt? faults c.redis (rateLimitKey c)).1 = .error err ∧
          err ≠ CacheError.Nil) ∨
        ((Cache.Get Value.toInt? faults c.redis (rateLimitKey c)).1 = .error CacheError.Nil ∧
          ∃ err, (Cache.Set faults (Cache.Get Value.toInt? faults c.redis (rateLimitKey c)).2
            (rateLimitKey c) (.int 1) cfg.Ratelimit.Period).1 = some err)) →
      Admitted handlers c (HandleRateLimit cfg faults handlers c)) ∧
    (∀ count r1, checkRateLimit cfg faults c.redis (rateLimitKey c) = (.ok (count, false), r1) →
      Admitted handlers c (HandleRateLimit cfg faults handlers c)) := by
  constructor
  · intro h
    have herr : ∃ err r1, checkRateLimit cfg faults c.redis (rateLimitKey c) = (.error err, r1) := by
      rcases h with ⟨err, h1, h2⟩ | ⟨h1, err, h2⟩
      · refine ⟨err, (Cache.Get Value.toInt? faults c.redis (rateLimitKey c)).2, ?_⟩
        unfold checkRateLimit
        generalize Cache.Get Value.toInt? faults c.redis (rateLimitKey c) = g at h1
        obtain ⟨g1, g2⟩ := g
        simp only at h1
        subst h1
        cases err <;> simp at h2 ⊢
      · refine ⟨err, (Cache.Set faults (Cache.Get Value.toInt? faults c.redis (rateLimitKey c)).2
            (rateLimitKey c) (.int 1) cfg.Ratelimit.Period).2, ?_⟩
        unfold checkRateLimit
        generalize Cache.Get Value.toInt? faults c.redis (rateLimitKey c) = g at h1 h2
        obtain ⟨g1, g2⟩ := g
        simp only at h1 h2
        subst h1
        simp only
        generalize Cache.Set faults g2 (rateLimitKey c) (.int 1) cfg.Ratelimit.Period = s at h2
        obtain ⟨s1, s2⟩ := s
        simp only at h2
        subst h2
        rfl
    obtain ⟨err, r1, hc⟩ := herr
    rw [HandleRateLimit_error cfg faults handlers c err r1 hc]
    exact ⟨{ c with redis := r1 }, rfl, rfl, rfl, rfl, rfl, rfl⟩
  · intro count r1 hc
    obtain ⟨c1, h1, h2, h3, h4, h5, h6, -, -⟩ := HandleRateLimit_below cfg faults handlers c count r1 hc
    exact ⟨c1, h1, h2, h3, h4, h5, h6⟩

theorem rate_limiter_fails_open_witness :
    Admitted [] sampleContext (HandleRateLimit (sampleConfig 5) allFaults [] sampleContext) ∧
      Admitted [] sampleContext
        (HandleRateLimit (sampleConfig 5) (fun n => decide (2 ≤ n)) [] sampleContext) :=
  ⟨(rate_limiter_fails_open (sampleConfig 5) allFaults [] sampleContext).1
      (Or.inl ⟨CacheError.unavailable, rfl, by decide⟩),
    (rate_limiter_fails_open (sampleConfig 5) (fun n => decide (2 ≤ n)) [] sampleContext).2 1
      (checkRateLimit (sampleConfig 5) (fun n => decide (2 ≤ n)) sampleContext.redis
        (rateLimitKey sampleContext)).2 rfl⟩

/-! ## The idempotency middleware -/

/-- The replay branch. -/
theorem HandleIdempotency_hit (sha256hex : String → String) (faults : Nat → Bool)
    (handlers : List HandlerFunc) (c : Context) (key : String) (resp : CachedResponse) (r1 : Redis)
    (hm : isIdempotentMethod c.Request.Method = true)
    (hk : idempotencyKeyOf sha256hex c = .ok key)
    (hg : Cache.Get Value.toResponse? faults c.redis (idempotencyCacheKey c.Request.Method key) =
      (.ok resp, r1)) :
    HandleIdempotency sha256hex faults handlers c =
      ((((replayHeaders resp.Headers { c with redis := r1 }).Header "X-Idempotency-Hit" "true").Data
        resp.StatusCode "application/json" resp.Body).Abort) := by
  simp only [HandleIdempotency, hm, hk, hg, Bool.not_true, Bool.false_eq_true, if_false]

/-- The conflict branch. -/
theorem HandleIdempotency_conflict (sha256hex : String → String) (faults : Nat → Bool)
    (handlers : List HandlerFunc) (c : Context) (key : String) (e e2 : CacheError) (r1 r2 : Redis)
    (hm : isIdempotentMethod c.Request.Method = true)
    (hk : idempotencyKeyOf sha256hex c = .ok key)
    (hg : Cache.Get Value.toResponse? faults c.redis (idempotencyCacheKey c.Request.Method key) =
      (.error e, r1))
    (hs : Cache.Set faults r1 (idempotencyLockKey c.Request.Method key) (.int 1) LOCK_TTL =
      (some e2, r2)) :
    HandleIdempotency sha256hex faults handlers c =
      (response.Error { c with redis := r2 } 409
        "A request with the same idempotency key is already being processed").Abort := by
  simp only [HandleIdempotency, hm, hk, hg, hs, Bool.not_true, Bool.false_eq_true, if_false]

/-- The processing branch. -/
theorem HandleIdempotency_process (sha256hex : String → String) (faults : Nat → Bool)
    (handlers : List HandlerFunc) (c : Context) (key : String) (e : CacheError) (r1 r2 : Redis)
    (hm : isIdempotentMethod c.Request.Method = true)
    (hk : idempotencyKeyOf sha256hex c = .ok key)
    (hg : Cache.Get Value.toResponse? faults c.redis (idempotencyCacheKey c.Request.Method key) =
      (.error e, r1))
    (hs : Cache.Set faults r1 (idempotencyLockKey c.Request.Method key) (.int 1) LOCK_TTL =
      (none, r2)) :
    HandleIdempotency sha256hex faults handlers c =
      releaseLock faults (idempotencyLockKey c.Request.Method key)
        (storeResponse faults handlers (idempotencyCacheKey c.Request.Method key)
          (Context.Next handlers
            { c with redis := r2, Writer := { c.Writer with captured := [] } })) := by
  simp only [HandleIdempotency, hm, hk, hg, hs, Bool.not_true, Bool.false_eq_true, if_false]

/-- After the first `c.Next()` the tail of the middleware calls no handler: it
issues the write when the status is below 500 and leaves the response alone. -/
theorem storeResponse_after_next (faults : Nat → Bool) (handlers : List HandlerFunc)
    (cacheKey : String) (c : Context) (h : handlers.length ≤ c.index) :
    (storeResponse faults handlers cacheKey c).Writer = c.Writer ∧
      (storeResponse faults handlers cacheKey c).trace = c.trace ∧
      (storeResponse faults handlers cacheKey c).redis =
        if 500 ≤ c.Writer.status then c.redis
        else (Cache.Set faults c.redis cacheKey
          (.response { StatusCode := c.Writer.status, Headers := firstValues c.Writer.header,
                       Body := c.Writer.captured }) IDEMPOTENCY_TTL).2 := by
  unfold storeResponse
  split
  · simp
  · rw [Next_of_le handlers _ (by simpa using h)]
    simp

theorem cacheKey_ne_lockKey (method key : String) :
    idempotencyCacheKey method key ≠ idempotencyLockKey method key := by
  intro h
  have h1 := congrArg String.data h
  simp [idempotencyCacheKey, idempotencyLockKey, String.data_append] at h1

/-- `c.Next()` from position 0 of a chain with one handler after the middleware. -/
theorem Next_chainOf (h : HandlerFunc) (c : Context) (hi : c.index = 0) :
    Context.Next (chainOf h) c =
      { h { c with index := 1 } with
        index := max 1 (h { c with index := 1 }).index + 1
        trace := c.trace ++ [1] } := by
  unfold Context.Next
  rw [nextLoop_step (chainOf h) _ (by simp [hi, chainOf])]
  rw [nextLoop_of_le (chainOf h) _ (by simp [hi, chainOf])]
  simp [hi, chainOf]

/-- The processing branch in terms of the context `mid` that the first `c.Next()`
returns: the response is the one the chain produced, no handler is called again, the
entry is written when the status is below 500, and the lock is deleted last. -/
theorem HandleIdempotency_process_fields (sha256hex : String → String) (faults : Nat → Bool)
    (handlers : List HandlerFunc) (c : Context) (key : String) (e : CacheError) (r1 r2 : Redis)
    (hm : isIdempotentMethod c.Request.Method = true)
    (hk : idempotencyKeyOf sha256hex c = .ok key)
    (hg : Cache.Get Value.toResponse? faults c.redis (idempotencyCacheKey c.Request.Method key) =
      (.error e, r1))
    (hs : Cache.Set faults r1 (idempotencyLockKey c.Request.Method key) (.int 1) LOCK_TTL =
      (none, r2))
    (mid : Context)
    (hmid : mid = Context.Next handlers
      { c with redis := r2, Writer := { c.Writer with captured := [] } }) :
    (HandleIdempotency sha256hex faults handlers c).Writer = mid.Writer ∧
      (HandleIdempotency sha256hex faults handlers c).trace = mid.trace ∧
      (HandleIdempotency sha256hex faults handlers c).redis =
        (Cache.Delete faults
          (if 500 ≤ mid.Writer.status then mid.redis
            else (Cache.Set faults mid.redis (idempotencyCacheKey c.Request.Method key)
              (.response { StatusCode := mid.Writer.status
                           Headers := firstValues mid.Writer.header
                           Body := mid.Writer.captured }) IDEMPOTENCY_TTL).2)
          (idempotencyLockKey c.Request.Method key)).2 := by
  rw [HandleIdempotency_process sha256hex faults handlers c key e r1 r2 hm hk hg hs, ← hmid]
  have hi : handlers.length ≤ mid.index := by
    rw [hmid]
    exact Next_index handlers _
  obtain ⟨h1, h2, h3⟩ := storeResponse_after_next faults handlers
    (idempotencyCacheKey c.Request.Method key) mid hi
  refine ⟨?_, ?_, ?_⟩
  · simp [releaseLock, h1]
  · simp [releaseLock, h2]
  · simp [releaseLock, h3]

/-- C1, evaluated. While another request holds the lock of key `k1` and no response
is cached for it, a POST with `X-Idempotency-Key: k1` on a cache without errors is
not answered 409: the handler after the middleware is called, its 201 is the
response, and the lock entry of the other request is deleted. -/
theorem held_lock_not_respected :
    heldLock.data "idempotency_lock:POST:k1" = some ⟨.int 1, some LOCK_TTL⟩ ∧
      heldLock.data "idempotency:POST:k1" = none ∧
      (HandleIdempotency sampleHash noFaults (chainOf created)
        { keyedContext with redis := heldLock }).Writer.status = 201 ∧
      (HandleIdempotency sampleHash noFaults (chainOf created)
        { keyedContext with redis := heldLock }).trace = [1] ∧
      (HandleIdempotency sampleHash noFaults (chainOf created)
        { keyedContext with redis := heldLock }).redis.data "idempotency_lock:POST:k1" = none := by
  have hlk : idempotencyLockKey "POST" "k1" = "idempotency_lock:POST:k1" := by decide
  have hck : idempotencyCacheKey "POST" "k1" = "idempotency:POST:k1" := by decide
  obtain ⟨h1, h2, h3⟩ := HandleIdempotency_process_fields sampleHash noFaults (chainOf created)
    { keyedContext with redis := heldLock } "k1" CacheError.Nil
    (Cache.Get Value.toResponse? noFaults heldLock "idempotency:POST:k1").2
    (Cache.Set noFaults (Cache.Get Value.toResponse? noFaults heldLock "idempotency:POST:k1").2
      "idempotency_lock:POST:k1" (.int 1) LOCK_TTL).2
    (by decide) rfl (by
      show Cache.Get Value.toResponse? noFaults heldLock (idempotencyCacheKey "POST" "k1") = _
      rw [hck]
      simp [Cache.Get, noFaults, heldLock])
    (by
      show Cache.Set noFaults _ (idempotencyLockKey "POST" "k1") _ _ = _
      rw [hlk]
      simp [Cache.Set, noFaults]) _ rfl
  rw [h1, h2, h3, Next_chainOf created _ rfl]
  refine ⟨by simp [heldLock], by simp [heldLock], ?_, ?_, ?_⟩
  · simp [created, ResponseWriter.Write, ResponseWriter.WriteHeader, keyedContext, sampleContext,
      freshWriter]
  · simp [keyedContext, sampleContext]
  · show (Cache.Delete noFaults _ (idempotencyLockKey "POST" "k1")).2.data _ = none
    rw [hlk]
    simp [Cache.Delete, noFaults]

theorem Delete_other (faults : Nat → Bool) (r : Redis) (key k : String) (h : k ≠ key) :
    (Cache.Delete faults r key).2.data k = r.data k := by
  unfold Cache.Delete
  split <;> simp [Redis.record, h]

theorem Delete_log (faults : Nat → Bool) (r : Redis) (key : String) :
    (Cache.Delete faults r key).2.log = r.log ++ [Cmd.del key] := by
  unfold Cache.Delete
  split <;> simp [Redis.record]

theorem Set_log (faults : Nat → Bool) (r : Redis) (key : String) (v : Value) (d : Int) :
    (Cache.Set faults r key v d).2.log = r.log ++ [Cmd.set key v d] := by
  unfold Cache.Set
  split
  · simp [Redis.record]
  · split <;> simp [Redis.record]

/-- A `CachedResponse` handed to `Set` is never stored. -/
theorem Set_response_data (faults : Nat → Bool) (r : Redis) (key : String)
    (resp : CachedResponse) (d : Int) :
    (Cache.Set faults r key (.response resp) d).2.data = r.data ∧
      (Cache.Set faults r key (.response resp) d).1 ≠ none := by
  unfold Cache.Set
  split <;> simp [Redis.record]

theorem Get_absent (faults : Nat → Bool) (r : Redis) (key : String) (resp : CachedResponse)
    (h : r.data key = none) : (Cache.Get Value.toResponse? faults r key).1 ≠ .ok resp := by
  unfold Cache.Get
  split <;> simp [h]

theorem Get_data {α : Type} (decode : Value → Option α) (faults : Nat → Bool) (r : Redis)
    (key : String) : (Cache.Get decode faults r key).2.data = r.data := by
  unfold Cache.Get
  split
  · simp [Redis.record]
  · split
    · simp [Redis.record]
    · split <;> simp [Redis.record]

theorem Get_log {α : Type} (decode : Value → Option α) (faults : Nat → Bool) (r : Redis)
    (key : String) : (Cache.Get decode faults r key).2.log = r.log ++ [Cmd.get key] := by
  unfold Cache.Get
  split
  · simp [Redis.record]
  · split
    · simp [Redis.record]
    · split <;> simp [Redis.record]

/-- The conflict branch leaves a 409 with the envelope. -/
theorem conflict_fields (c : Context) (r2 : Redis) (hw : c.Writer.written = false)
    (hd : r2.data = c.redis.data) :
    Conflict c ((response.Error { c with redis := r2 } 409
      "A request with the same idempotency key is already being processed").Abort) := by
  unfold Conflict response.Error Context.JSON
  refine ⟨?_, ?_, ?_, ?_, ?_⟩
  · simp only [Context.Abort]
    exact Render_status _ _ _ _ hw (by decide)
  · simp only [Context.Abort]
    rw [Render_body]
    simp [bodyAllowedForStatus]
  · simp [Context.IsAborted, Context.Abort]
  · simp [Context.Abort, (Render_fields _ _ _ _).2.1]
  · simp [Context.Abort, (Render_fields _ _ _ _).2.2.1, hd]

/-- When every cache command fails, a non-safe request whose key is available is
answered 409 with the error envelope: the failed read counts as a miss, the failed
write of the lock as a conflict, the chain is aborted and no handler runs. Only a
request whose key cannot be generated is handed on. -/
theorem cache_outage_conflict (sha256hex : String → String) (faults : Nat → Bool)
    (handlers : List HandlerFunc) (c : Context)
    (hm : isIdempotentMethod c.Request.Method = true) (hf : ∀ n, faults n = true)
    (hw : c.Writer.written = false) :
    match idempotencyKeyOf sha256hex c with
    | .ok _ => Conflict c (HandleIdempotency sha256hex faults handlers c)
    | .error _ => HandleIdempotency sha256hex faults handlers c = Context.Next handlers c := by
  cases hk : idempotencyKeyOf sha256hex c with
  | error err =>
    simp only [HandleIdempotency, hm, hk, Bool.not_true, Bool.false_eq_true, if_false]
  | ok key =>
    simp only
    have hg : Cache.Get Value.toResponse? faults c.redis
        (idempotencyCacheKey c.Request.Method key) =
        (.error .unavailable, (Cache.Get Value.toResponse? faults c.redis
          (idempotencyCacheKey c.Request.Method key)).2) := by
      simp [Cache.Get, hf]
    have hs : Cache.Set faults (Cache.Get Value.toResponse? faults c.redis
          (idempotencyCacheKey c.Request.Method key)).2
        (idempotencyLockKey c.Request.Method key) (.int 1) LOCK_TTL =
        (some .unavailable, (Cache.Set faults (Cache.Get Value.toResponse? faults c.redis
          (idempotencyCacheKey c.Request.Method key)).2
        (idempotencyLockKey c.Request.Method key) (.int 1) LOCK_TTL).2) := by
      simp [Cache.Set, hf]
    rw [HandleIdempotency_conflict sha256hex faults handlers c key _ _ _ _ hm hk hg hs]
    apply conflict_fields c _ hw
    simp [Cache.Set, hf, Redis.record, Get_data]

/-- C4, evaluated. With a cache that cannot be reached, the sample POST with
`X-Idempotency-Key: k1` is not handed to the handler after the middleware: it is
answered 409 (the answer meant for a lock that is held), the chain is aborted and no
handler is called. -/
theorem cache_outage_not_passed_on :
    (∀ n, allFaults n = true) ∧ isIdempotentMethod keyedContext.Request.Method = true ∧
      ¬ Admitted (chainOf created) keyedContext
        (HandleIdempotency sampleHash allFaults (chainOf created) keyedContext) ∧
      (HandleIdempotency sampleHash allFaults (chainOf created) keyedContext).Writer.status = 409 ∧
      (HandleIdempotency sampleHash allFaults (chainOf created) keyedContext).IsAborted = true ∧
      (HandleIdempotency sampleHash allFaults (chainOf created) keyedContext).trace = [] := by
  have h : Conflict keyedContext
      (HandleIdempotency sampleHash allFaults (chainOf created) keyedContext) := by
    have hg : Cache.Get Value.toResponse? allFaults keyedContext.redis
        (idempotencyCacheKey keyedContext.Request.Method "k1") =
        (.error .unavailable, (Cache.Get Value.toResponse? allFaults keyedContext.redis
          (idempotencyCacheKey keyedContext.Request.Method "k1")).2) := rfl
    have hs : Cache.Set allFaults (Cache.Get Value.toResponse? allFaults keyedContext.redis
          (idempotencyCacheKey keyedContext.Request.Method "k1")).2
        (idempotencyLockKey keyedContext.Request.Method "k1") (.int 1) LOCK_TTL =
        (some .unavailable, (Cache.Set allFaults (Cache.Get Value.toResponse? allFaults
          keyedContext.redis (idempotencyCacheKey keyedContext.Request.Method "k1")).2
        (idempotencyLockKey keyedContext.Request.Method "k1") (.int 1) LOCK_TTL).2) := rfl
    rw [HandleIdempotency_conflict sampleHash allFaults (chainOf created) keyedContext "k1" _ _ _ _
      (by decide) rfl hg hs]
    exact conflict_fields keyedContext _ rfl rfl
  refine ⟨fun _ => rfl, by decide, ?_, h.1, h.2.2.1, h.2.2.2.1⟩
  rintro ⟨c1, h1, h2, h3, -⟩
  have ht := h.2.2.2.1
  rw [h1, Next_chainOf created c1 h2, h3] at ht
  simp [keyedContext, sampleContext] at ht

theorem writeContentType_of_set (w : ResponseWriter) (value v : String) (vs : List String)
    (h : w.header "Content-Type" = some (v :: vs)) : w.writeContentType value = w := by
  unfold ResponseWriter.writeContentType
  rw [h]

/-- `c.Render` leaves a header that has a value as it is. -/
theorem Render_header_of_set (c : Context) (code : Nat) (contentType : String) (data : Bytes)
    (k v : String) (vs : List String) (h : c.Writer.header k = some (v :: vs)) :
    (c.Render code contentType data).Writer.header k = some (v :: vs) := by
  by_cases hk : k = "Content-Type"
  · subst hk
    have hw : (c.Writer.WriteHeader code).header "Content-Type" = some (v :: vs) := by
      rw [(WriteHeader_fields _ _).2.1, h]
    unfold Context.Render
    split
    · simp [ResponseWriter.Write, writeContentType_of_set _ _ _ _ hw, hw]
    · simp [ResponseWriter.WriteHeaderNow, writeContentType_of_set _ _ _ _ hw, hw]
  · rw [Render_header _ _ _ _ _ hk, h]

theorem replayHeaders_fields (headers : String → Option String) (c : Context) :
    (replayHeaders headers c).index = c.index ∧ (replayHeaders headers c).trace = c.trace ∧
      (replayHeaders headers c).redis = c.redis ∧
      (replayHeaders headers c).Writer.status = c.Writer.status ∧
      (replayHeaders headers c).Writer.written = c.Writer.written ∧
      (replayHeaders headers c).Writer.body = c.Writer.body := by
  simp [replayHeaders]

/-- The response of the replay branch. -/
theorem replay_fields (sha256hex : String → String) (faults : Nat → Bool)
    (handlers : List HandlerFunc) (c : Context) (key : String) (resp : CachedResponse) (r1 : Redis)
    (hm : isIdempotentMethod c.Request.Method = true)
    (hk : idempotencyKeyOf sha256hex c = .ok key)
    (hg : Cache.Get Value.toResponse? faults c.redis (idempotencyCacheKey c.Request.Method key) =
      (.ok resp, r1))
    (hw : c.Writer.written = false) (hpos : 0 < resp.StatusCode) :
    (HandleIdempotency sha256hex faults handlers c).Writer.status = resp.StatusCode ∧
      (HandleIdempotency sha256hex faults handlers c).Writer.body =
        c.Writer.body ++ (if bodyAllowedForStatus resp.StatusCode then resp.Body else []) ∧
      (∀ k v, resp.Headers k = some v → v ≠ "" → k ≠ "X-Idempotency-Hit" →
        (HandleIdempotency sha256hex faults handlers c).Writer.header k = some [v]) ∧
      (HandleIdempotency sha256hex faults handlers c).Writer.header "X-Idempotency-Hit" =
        some ["true"] ∧
      (HandleIdempotency sha256hex faults handlers c).trace = c.trace ∧
      (HandleIdempotency sha256hex faults handlers c).IsAborted = true := by
  rw [HandleIdempotency_hit sha256hex faults handlers c key resp r1 hm hk hg]
  refine ⟨?_, ?_, ?_, ?_, ?_, ?_⟩
  · simp only [Context.Abort, Context.Data]
    apply Render_status _ _ _ _ _ hpos
    rw [(Header_fields _ _ _).2.2.2.2.2.1, (replayHeaders_fields _ _).2.2.2.2.1]
    exact hw
  · simp only [Context.Abort, Context.Data]
    rw [Render_body, (Header_fields _ _ _).2.2.2.2.2.2.1, (replayHeaders_fields _ _).2.2.2.2.2]
    split <;> simp
  · intro k v hv hne hk2
    simp only [Context.Abort, Context.Data]
    apply Render_header_of_set
    rw [Header_header, if_neg hk2]
    simp [replayHeaders, hv, hne]
  · simp only [Context.Abort, Context.Data]
    apply Render_header_of_set
    rw [Header_header]
    simp
  · simp [Context.Abort, Context.Data, (Render_fields _ _ _ _).2.1, (Header_fields _ _ _).2.1,
      (replayHeaders_fields _ _).2.1]
  · simp [Context.IsAborted, Context.Abort]

/-- Without a cached response under the key, a read that does not fail is a miss. -/
theorem Get_miss (faults : Nat → Bool) (r : Redis) (key : String)
    (h : ∀ e, r.data key = some e → e.value.toResponse? = none) :
    ∃ err, Cache.Get Value.toResponse? faults r key =
      (.error err, (Cache.Get Value.toResponse? faults r key).2) := by
  unfold Cache.Get
  split
  · exact ⟨_, rfl⟩
  · cases hd : r.data key with
    | none => exact ⟨_, rfl⟩
    | some e =>
      simp only
      rw [h e hd]
      exact ⟨_, rfl⟩

/-- The trace of `c.Next()`: new positions only, each once, the next one among them. -/
theorem Next_trace (handlers : List HandlerFunc) (c : Context)
    (h : c.index + 1 < handlers.length) :
    ∃ l : List Nat, (Context.Next handlers c).trace = c.trace ++ l ∧ l.count (c.index + 1) = 1 := by
  unfold Context.Next
  obtain ⟨l, h1, -, h3, h4⟩ := nextLoop_trace handlers { c with index := c.index + 1 }
  exact ⟨l, h1, List.count_eq_one_of_mem h3 (h4 h)⟩

/-- The response of the sample request when it is processed by the chain with
handler `h` on the empty store. -/
theorem sample_first (h : HandlerFunc) :
    (HandleIdempotency sampleHash noFaults (chainOf h) keyedContext).Writer =
      (h processingContext).Writer := by
  obtain ⟨p1, -, -⟩ := HandleIdempotency_process_fields sampleHash noFaults (chainOf h)
    keyedContext "k1" CacheError.Nil _ _ (by decide) rfl rfl rfl _ rfl
  rw [p1, Next_chainOf h _ rfl]
  rfl

/-! ## The reverse proxy -/

/-- C9. Unknown service: when the service name is absent from the registry or mapped
to the empty string, `ForwardRequest` answers 404 with the error envelope, aborts the
chain and sends nothing to any upstream. -/
theorem unknown_service_not_found (cfg : Config) (urlParse : String → Except String URL)
    (transport : OutRequest → RoundTrip) (serviceName : String) (c : Context)
    (h : cfg.FowardServiceUrl serviceName = none ∨ cfg.FowardServiceUrl serviceName = some "")
    (hw : c.Writer.written = false) :
    ServiceNotFound serviceName c (ForwardRequest cfg urlParse transport serviceName c) := by
  have hout : ForwardRequest cfg urlParse transport serviceName c =
      (response.Error c 404 ("Service \x27" ++ serviceName ++ "\x27 not found")).Abort := by
    unfold ForwardRequest
    rcases h with h | h <;> simp [h]
  rw [hout]
  unfold ServiceNotFound response.Error Context.JSON
  refine ⟨?_, ?_, ?_, ?_⟩
  · simp only [Context.Abort]
    exact Render_status _ _ _ _ hw (by decide)
  · simp only [Context.Abort]
    rw [Render_body]
    simp [bodyAllowedForStatus]
  · simp [Context.IsAborted, Context.Abort]
  · simp [Context.Abort, (Render_fields _ _ _ _).2.2.2]

theorem unknown_service_not_found_witness :
    ServiceNotFound "unknown-service" sampleContext
      (ForwardRequest (sampleConfig 5) (fun _ => .error "no url") (fun _ => .failed "no upstream")
        "unknown-service" sampleContext) :=
  unknown_service_not_found (sampleConfig 5) (fun _ => .error "no url")
    (fun _ => .failed "no upstream") "unknown-service" sampleContext (Or.inl rfl) rfl

/-! ## The health controller -/

theorem scanServices_eq (overall : String) (l : List (String × ServiceStatus)) :
    scanServices overall l =
      if ∃ s ∈ l, s.2.status = "down" then "degraded" else overall := by
  induction l with
  | nil => simp [scanServices]
  | cons s rest ih =>
    obtain ⟨name, st⟩ := s
    simp only [scanServices]
    by_cases h : st.status = "down"
    · simp [h]
    · have hc : (∃ s ∈ (name, st) :: rest, s.2.status = "down") ↔
          ∃ s ∈ rest, s.2.status = "down" := by
        constructor
        · rintro ⟨s, hs, hd⟩
          rcases List.mem_cons.mp hs with rfl | hs
          · exact absurd hd h
          · exact ⟨s, hs, hd⟩
        · rintro ⟨s, hs, hd⟩
          exact ⟨s, List.mem_cons_of_mem _ hs, hd⟩
      rw [if_neg h, ih]
      simp only [hc]

theorem degradedAsUp_down (l : List (String × ServiceStatus)) :
    (∃ s ∈ degradedAsUp l, s.2.status = "down") ↔ ∃ s ∈ l, s.2.status = "down" := by
  unfold degradedAsUp
  constructor
  · rintro ⟨s, hs, hd⟩
    obtain ⟨t, ht, rfl⟩ := List.mem_map.mp hs
    refine ⟨t, ht, ?_⟩
    by_cases h : t.2.status = "degraded"
    · simp [h] at hd
    · simpa [h] using hd
  · rintro ⟨s, hs, hd⟩
    refine ⟨_, List.mem_map.mpr ⟨s, hs, rfl⟩, ?_⟩
    have h : ¬ s.2.status = "degraded" := by
      rw [hd]
      decide
    simp [h, hd]

/-- For every result of the cache ping and every collection of service statuses, the
overall status is `up` exactly when the ping succeeded and no service is `down`, and
`degraded` otherwise; it is never `down`; and turning every `degraded` service into an
`up` one does not change it. -/
theorem overallStatus_aggregation (ping : Option String) (serviceStatuses : List (String × ServiceStatus)) :
    (overallStatus (redisStatus ping) serviceStatuses = "up" ↔
        ping = none ∧ ∀ s ∈ serviceStatuses, s.2.status ≠ "down") ∧
      (overallStatus (redisStatus ping) serviceStatuses ≠ "up" →
        overallStatus (redisStatus ping) serviceStatuses = "degraded") ∧
      overallStatus (redisStatus ping) serviceStatuses ≠ "down" ∧
      overallStatus (redisStatus ping) (degradedAsUp serviceStatuses) =
        overallStatus (redisStatus ping) serviceStatuses := by
  unfold overallStatus
  simp only [scanServices_eq, degradedAsUp_down]
  by_cases hd : ∃ s ∈ serviceStatuses, s.2.status = "down"
  · rw [if_pos hd]
    refine ⟨⟨fun h => absurd h (by decide), ?_⟩, fun _ => rfl, by decide, trivial⟩
    rintro ⟨-, h⟩
    obtain ⟨s, hs, hs2⟩ := hd
    exact absurd hs2 (h s hs)
  · rw [if_neg hd]
    have hall : ∀ s ∈ serviceStatuses, s.2.status ≠ "down" := fun s hs h => hd ⟨s, hs, h⟩
    cases ping with
    | none =>
      have e : (if redisStatus none ≠ "up" then "degraded" else "up") = "up" := by decide
      rw [e]
      exact ⟨⟨fun _ => ⟨rfl, hall⟩, fun _ => rfl⟩, fun h => absurd rfl h, by decide, trivial⟩
    | some err =>
      have e : (if redisStatus (some err) ≠ "up" then "degraded" else "up") = "degraded" := by
        simp [redisStatus]
      rw [e]
      refine ⟨⟨fun h => absurd h (by decide), ?_⟩, fun _ => rfl, by decide, trivial⟩
      rintro ⟨h, -⟩
      exact absurd h (by simp)

/-! ## The auth guard -/

theorem splitOn_ne_nil (sep : Char) (l : List Char) : splitOn sep l ≠ [] := by
  cases l with
  | nil => simp [splitOn]
  | cons c cs =>
    simp only [splitOn]
    split
    · simp
    · split <;> simp

theorem splitOn_of_not_mem (sep : Char) (l : List Char) (h : sep ∉ l) :
    splitOn sep l = [l] := by
  induction l with
  | nil => rfl
  | cons c cs ih =>
    have hc : c ≠ sep := fun e => h (e ▸ List.mem_cons_self _ _)
    have hcs : sep ∉ cs := fun e => h (List.mem_cons_of_mem _ e)
    simp [splitOn, hc, ih hcs]

theorem splitOn_append (sep : Char) (a b : List Char) (h : sep ∉ a) :
    splitOn sep (a ++ sep :: b) = a :: splitOn sep b := by
  induction a with
  | nil => simp [splitOn]
  | cons c cs ih =>
    have hc : c ≠ sep := fun e => h (e ▸ List.mem_cons_self _ _)
    have hcs : sep ∉ cs := fun e => h (List.mem_cons_of_mem _ e)
    simp [splitOn, hc, ih hcs]

theorem splitOn_one (sep : Char) (l p : List Char) (h : splitOn sep l = [p]) :
    l = p ∧ sep ∉ p := by
  induction l generalizing p with
  | nil =>
    simp [splitOn] at h
    subst h
    simp
  | cons c cs ih =>
    simp only [splitOn] at h
    by_cases hc : c = sep
    · rw [if_pos hc] at h
      simp only [List.cons.injEq] at h
      exact absurd h.2 (splitOn_ne_nil sep cs)
    · rw [if_neg hc] at h
      cases hs : splitOn sep cs with
      | nil => exact absurd hs (splitOn_ne_nil sep cs)
      | cons q qs =>
        rw [hs] at h
        simp only [List.cons.injEq] at h
        obtain ⟨h1, h2⟩ := h
        subst h1 h2
        obtain ⟨e1, e2⟩ := ih q hs
        subst e1
        refine ⟨rfl, ?_⟩
        intro hm
        rcases List.mem_cons.mp hm with e | e
        · exact hc e.symm
        · exact e2 e

theorem splitOn_two (sep : Char) (l p0 p1 : List Char) (h : splitOn sep l = [p0, p1]) :
    l = p0 ++ sep :: p1 ∧ sep ∉ p0 ∧ sep ∉ p1 := by
  induction l generalizing p0 with
  | nil => simp [splitOn] at h
  | cons c cs ih =>
    simp only [splitOn] at h
    by_cases hc : c = sep
    · rw [if_pos hc] at h
      simp only [List.cons.injEq] at h
      obtain ⟨h1, h2⟩ := h
      obtain ⟨e1, e2⟩ := splitOn_one sep cs p1 h2
      subst h1 e1 hc
      simp [e2]
    · rw [if_neg hc] at h
      cases hs : splitOn sep cs with
      | nil => exact absurd hs (splitOn_ne_nil sep cs)
      | cons q qs =>
        rw [hs] at h
        simp only [List.cons.injEq] at h
        obtain ⟨h1, h2⟩ := h
        subst h1 h2
        obtain ⟨e1, e2, e3⟩ := ih q hs
        refine ⟨by rw [e1]; rfl, ?_, e3⟩
        intro hm
        rcases List.mem_cons.mp hm with e | e
        · exact hc e.symm
        · exact e2 e

/-- `extractToken` accepts exactly the headers of the shape `Bearer <token>`. -/
theorem extractToken_ok_iff (h t : String) : extractToken h = .ok t ↔ IsBearer h t := by
  unfold IsBearer
  constructor
  · intro he
    unfold extractToken Split at he
    cases hs : splitOn ' ' h.data with
    | nil => exact absurd hs (splitOn_ne_nil _ _)
    | cons p0 ps =>
      rw [hs] at he
      match ps, hs, he with
      | [], _, he => simp at he
      | [p1], hs, he =>
        simp only [List.map_cons, List.map_nil] at he
        by_cases h0 : String.mk p0 = BEARER_PREFIX
        · by_cases h1 : String.mk p1 = ""
          · simp [h0, h1] at he
          · simp only [h0, h1, ne_eq, not_true_eq_false, if_false, Except.ok.injEq] at he
            obtain ⟨e1, e2, e3⟩ := splitOn_two ' ' h.data p0 p1 hs
            have hp0 : p0 = "Bearer".data := by
              have := congrArg String.data h0
              simpa [BEARER_PREFIX] using this
            subst he
            refine ⟨?_, h1, e3⟩
            apply String.ext
            rw [e1, hp0]
            simp [String.data_append]
        · simp [h0] at he
      | _ :: _ :: _, _, he => simp at he
  · rintro ⟨rfl, hne, hsp⟩
    unfold extractToken Split
    have hd : ("Bearer " ++ t).data = "Bearer".data ++ ' ' :: t.data := by
      simp [String.data_append]
    rw [hd, splitOn_append ' ' _ _ (by decide), splitOn_of_not_mem ' ' _ hsp]
    simp [BEARER_PREFIX, hne]

theorem NewResponse_isEnvelope (code : Nat) (msg : String) (h : msg ≠ "") :
    IsEnvelope code (NewResponse code msg none).toJson := by
  unfold IsEnvelope
  refine ⟨by simp [NewResponse, Response.toJson, Json.field], ⟨msg, h, ?_⟩, ?_⟩
  · simp [NewResponse, Response.toJson, Json.field]
  · simp [NewResponse, Response.toJson, Json.fieldNames]

/-- `response.Error` followed by `c.Abort()` on a response not yet written. -/
theorem Error_abort_envelope (c : Context) (code : Nat) (msg : String)
    (hw : c.Writer.written = false) (hc : 0 < code) (hb : bodyAllowedForStatus code = true)
    (hm : msg ≠ "") :
    ErrorEnvelope code c (response.Error c code msg).Abort ∧
      (response.Error c code msg).Abort.Keys = c.Keys ∧
      (response.Error c code msg).Abort.redis = c.redis ∧
      (response.Error c code msg).Abort.outbound = c.outbound := by
  have hs : (response.Error c code msg).Abort.Writer.status = code := by
    simp only [Context.Abort, response.Error, Context.JSON]
    exact Render_status _ _ _ _ hw hc
  unfold ErrorEnvelope
  rw [hs]
  refine ⟨⟨rfl, ⟨_, ?_, NewResponse_isEnvelope code msg hm⟩, ?_, ?_⟩, ?_, ?_, ?_⟩
  · simp only [Context.Abort, response.Error, Context.JSON]
    rw [Render_body, if_pos hb]
  · simp [Context.IsAborted, Context.Abort]
  · simp [Context.Abort, response.Error, Context.JSON, (Render_fields _ _ _ _).2.1]
  · simp [Context.Abort, response.Error, Context.JSON, Context.Render]
    split <;> rfl
  · simp [Context.Abort, response.Error, Context.JSON, (Render_fields _ _ _ _).2.2.1]
  · simp [Context.Abort, response.Error, Context.JSON, (Render_fields _ _ _ _).2.2.2]

theorem extractToken_error_ne (h e : String) (he : extractToken h = .error e) : e ≠ "" := by
  unfold extractToken at he
  split at he
  · split at he
    · simp only [Except.error.injEq] at he
      subst he
      decide
    · split at he
      · simp only [Except.error.injEq] at he
        subst he
        decide
      · simp at he
  · simp only [Except.error.injEq] at he
    subst he
    decide

theorem ValidateToken_error_ne (auth : AuthConfig)
    (parseWithClaims : String → String → Except String Token) (t e : String)
    (he : ValidateToken auth parseWithClaims t = .error e) : e ≠ "" := by
  unfold ValidateToken at he
  split at he
  · simp only [Except.error.injEq] at he
    subst he
    decide
  · split at he
    · simp only [Except.error.injEq] at he
      subst he
      decide
    · split at he
      · simp only [Except.error.injEq] at he
        subst he
        decide
      · simp at he

/-- `HandleAuth` either rejects with a 401 or attaches the user id and goes on. -/
theorem HandleAuth_cases (auth : AuthConfig)
    (parseWithClaims : String → String → Except String Token) (handlers : List HandlerFunc)
    (c : Context) (hw : c.Writer.written = false) :
    Unauthorized c (HandleAuth auth parseWithClaims handlers c) ∨
      ∃ t claims, extractToken (c.Request.GetHeader "Authorization") = .ok t ∧
        ValidateToken auth parseWithClaims t = .ok claims ∧
        HandleAuth auth parseWithClaims handlers c =
          Context.Next handlers (c.Set "user_id" claims.UserID) := by
  unfold HandleAuth
  simp only
  by_cases h0 : c.Request.GetHeader "Authorization" = ""
  · left
    rw [if_pos h0]
    obtain ⟨h1, h2, -, -⟩ := Error_abort_envelope c 401 "Authorization header is required" hw
      (by decide) (by decide) (by decide)
    exact ⟨h1, h2⟩
  · rw [if_neg h0]
    cases he : extractToken (c.Request.GetHeader "Authorization") with
    | error err =>
      left
      obtain ⟨h1, h2, -, -⟩ := Error_abort_envelope c 401 err hw (by decide) (by decide)
        (extractToken_error_ne _ _ he)
      exact ⟨h1, h2⟩
    | ok t =>
      simp only
      cases hv : ValidateToken auth parseWithClaims t with
      | error err =>
        left
        obtain ⟨h1, h2, -, -⟩ := Error_abort_envelope c 401 err hw (by decide) (by decide)
          (ValidateToken_error_ne _ _ _ _ hv)
        exact ⟨h1, h2⟩
      | ok claims =>
        right
        exact ⟨t, claims, rfl, hv, rfl⟩

/-- The auth guard on a request without a usable bearer token. -/
theorem HandleAuth_rejects (auth : AuthConfig)
    (parseWithClaims : String → String → Except String Token) (handlers : List HandlerFunc)
    (c : Context) (hw : c.Writer.written = false)
    (h : c.Request.GetHeader "Authorization" = "" ∨
      ∃ e, extractToken (c.Request.GetHeader "Authorization") = .error e) :
    Unauthorized c (HandleAuth auth parseWithClaims handlers c) := by
  rcases HandleAuth_cases auth parseWithClaims handlers c hw with h1 | ⟨t, claims, h1, -, -⟩
  · exact h1
  · rcases h with h | ⟨e, h⟩
    · rw [h] at h1
      have e : extractToken "" = .error "invalid authorization header format" := rfl
      rw [e] at h1
      cases h1
    · rw [h] at h1
      cases h1

/-- C11. Bearer extraction: `extractToken h` returns the token `t` exactly when `h` is
`Bearer`, one space, and a token `t` that is not empty and holds no space; every other
header value yields an error; and `HandleAuth` answers a request whose header is absent
or whose extraction fails with 401 (the error envelope), aborts the chain, calls no
handler and attaches no identity. -/
theorem bearer_extraction (auth : AuthConfig)
    (parseWithClaims : String → String → Except String Token) (handlers : List HandlerFunc)
    (c : Context) :
    (∀ h t, extractToken h = .ok t ↔ IsBearer h t) ∧
      (∀ h, (¬ ∃ t, IsBearer h t) → ∃ e, extractToken h = .error e) ∧
      (c.Writer.written = false →
        (c.Request.GetHeader "Authorization" = "" ∨
          ∃ e, extractToken (c.Request.GetHeader "Authorization") = .error e) →
        Unauthorized c (HandleAuth auth parseWithClaims handlers c)) := by
  refine ⟨extractToken_ok_iff, ?_, fun hw h => HandleAuth_rejects auth parseWithClaims handlers c hw h⟩
  intro h hn
  cases he : extractToken h with
  | error e => exact ⟨e, rfl⟩
  | ok t => exact absurd ⟨t, (extractToken_ok_iff h t).mp he⟩ hn

theorem bearer_extraction_witness :
    (extractToken "Bearer good" = .ok "good" ↔ IsBearer "Bearer good" "good") ∧
      (∃ e, extractToken "bearer good" = .error e) ∧
      Unauthorized (authContext "Bearer a b")
        (HandleAuth sampleAuth sampleParse (chainOf created) (authContext "Bearer a b")) ∧
      Unauthorized sampleContext
        (HandleAuth sampleAuth sampleParse (chainOf created) sampleContext) :=
  ⟨(bearer_extraction sampleAuth sampleParse (chainOf created) sampleContext).1 _ _,
    (bearer_extraction sampleAuth sampleParse (chainOf created) sampleContext).2.1 "bearer good"
      (by
        rintro ⟨t, ht⟩
        have h1 := ((bearer_extraction sampleAuth sampleParse (chainOf created)
          sampleContext).1 _ _).mpr ht
        have e : extractToken "bearer good" = .error "invalid authorization header format" := rfl
        rw [e] at h1
        cases h1),
    (bearer_extraction sampleAuth sampleParse (chainOf created) (authContext "Bearer a b")).2.2
      rfl (Or.inr ⟨"invalid authorization header format", rfl⟩),
    (bearer_extraction sampleAuth sampleParse (chainOf created) sampleContext).2.2
      rfl (Or.inl rfl)⟩

/-! ## Failure responses -/

/-- The 429 branch of the rate limiter. -/
theorem HandleRateLimit_exceeded_response (cfg : Config) (faults : Nat → Bool)
    (handlers : List HandlerFunc) (c : Context) (count : Int) (r1 : Redis)
    (hc : checkRateLimit cfg faults c.redis (rateLimitKey c) = (.ok (count, true), r1))
    (hw : c.Writer.written = false) :
    RateLimitResponse c (HandleRateLimit cfg faults handlers c) := by
  obtain ⟨h1, -, h3, h4, -⟩ := HandleRateLimit_exceeded cfg faults handlers c count r1 hc
  refine ⟨h1 hw,
    ⟨(match (Cache.TTL faults r1 (rateLimitKey c)).1 with
      | .ok d => d
      | .error _ => 0), ?_, by simp [rateLimitBody, Json.field],
      by simp [rateLimitBody, Json.field]⟩,
    by simp [Context.IsAborted, h3], h4⟩
  simp only [HandleRateLimit, hc, if_true, Context.Abort, Context.JSON]
  rw [Render_body, if_pos (by decide)]
  simp only [(Header_fields _ _ _).2.2.2.2.2.2.1]
  rfl

/-- A body that ends in the rate limiter document is not an error envelope. -/
theorem rateLimitBody_not_envelope (status : Nat) (ttl : Int) :
    ¬ IsEnvelope status (rateLimitBody ttl) := by
  intro h
  have h1 := h.1
  simp [rateLimitBody, Json.field] at h1

theorem RateLimitResponse_not_envelope (code : Nat) (c out : Context)
    (h : RateLimitResponse c out) : ¬ ErrorEnvelope code c out := by
  rintro ⟨-, ⟨j, hj, he⟩, -, -⟩
  obtain ⟨-, ⟨ttl, hb, -, -⟩, -, -⟩ := h
  rw [hb] at hj
  have hj2 := List.append_cancel_left hj
  simp only [List.cons.injEq, Chunk.json.injEq, and_true] at hj2
  rw [← hj2] at he
  exact rateLimitBody_not_envelope _ _ he

/-- C12 as stated fails for the rate limiter: the first request from the sample client
under a limit of 1 is answered 429 with the body `{error, retry_after}`, which has no
`status_code` field, so the response is not an error envelope. -/
theorem rate_limit_body_not_envelope :
    (HandleRateLimit (sampleConfig 1) noFaults [] sampleContext).Writer.status = 429 ∧
      (∃ ttl : Int, (HandleRateLimit (sampleConfig 1) noFaults [] sampleContext).Writer.body =
          [.json (rateLimitBody ttl)] ∧
        (rateLimitBody ttl).field "status_code" = none) ∧
      ¬ ErrorEnvelope 429 sampleContext
        (HandleRateLimit (sampleConfig 1) noFaults [] sampleContext) := by
  obtain ⟨r1, hc1, -⟩ := checkRateLimit_absent (sampleConfig 1) noFaults sampleContext.redis
    (rateLimitKey sampleContext) (fun _ => rfl) rfl
  have e1 : decide ((sampleConfig 1).Ratelimit.Limit ≤ 1) = true := by decide
  rw [e1] at hc1
  have h := HandleRateLimit_exceeded_response (sampleConfig 1) noFaults [] sampleContext 1 r1 hc1 rfl
  refine ⟨h.1, ?_, RateLimitResponse_not_envelope 429 _ _ h⟩
  obtain ⟨ttl, hb, -, hs⟩ := h.2.1
  exact ⟨ttl, by simpa [sampleContext, freshWriter] using hb, hs⟩

/-- The 404, 500 and 502 of the proxy. -/
theorem ForwardRequest_failures (cfg : Config) (urlParse : String → Except String URL)
    (transport : OutRequest → RoundTrip) (serviceName : String) (c : Context)
    (hw : c.Writer.written = false) :
    ((cfg.FowardServiceUrl serviceName = none ∨ cfg.FowardServiceUrl serviceName = some "") →
        ErrorEnvelope 404 c (ForwardRequest cfg urlParse transport serviceName c)) ∧
      (∀ url e, cfg.FowardServiceUrl serviceName = some url → url ≠ "" →
        urlParse url = .error e →
        ErrorEnvelope 500 c (ForwardRequest cfg urlParse transport serviceName c)) ∧
      (∀ url target e, cfg.FowardServiceUrl serviceName = some url → url ≠ "" →
        urlParse url = .ok target → transport (director serviceName target c) = .failed e →
        ErrorEnvelope 502 c (ForwardRequest cfg urlParse transport serviceName c)) := by
  refine ⟨?_, ?_, ?_⟩
  · intro h
    have hout : ForwardRequest cfg urlParse transport serviceName c =
        (response.Error c 404 ("Service \x27" ++ serviceName ++ "\x27 not found")).Abort := by
      unfold ForwardRequest
      rcases h with h | h <;> simp [h]
    rw [hout]
    refine (Error_abort_envelope c 404 _ hw (by decide) (by decide) ?_).1
    intro h0
    have := congrArg String.data h0
    simp [String.data_append] at this
  · intro url e h1 h2 h3
    have hout : ForwardRequest cfg urlParse transport serviceName c =
        (response.Error c 500 "Internal server error").Abort := by
      unfold ForwardRequest
      simp [h1, h2, h3]
    rw [hout]
    exact (Error_abort_envelope c 500 _ hw (by decide) (by decide) (by decide)).1
  · intro url target e h1 h2 h3 h4
    have hout : ForwardRequest cfg urlParse transport serviceName c =
        ((response.Error { c with outbound := c.outbound ++ [director serviceName target c] } 502
          "Bad gateway").Abort).Abort := by
      unfold ForwardRequest
      simp [h1, h2, h3, h4]
    rw [hout]
    have h := (Error_abort_envelope
      { c with outbound := c.outbound ++ [director serviceName target c] } 502 "Bad gateway" hw
      (by decide) (by decide) (by decide)).1
    exact h

/-- C12, as the code has it. Every failure response written through `response.Error`
(the 401 of the auth guard, the 409 of the idempotency middleware, the 404, 500 and
502 of the proxy), on a response not yet written, has the status of the failure and
the envelope `{status_code, error}` as its body, with `status_code` equal to the
status and a message that is not empty. The 429 of the rate limiter has the body
`{error, retry_after}`: a message under `error`, no `status_code`. -/
theorem failure_envelopes :
    (∀ (auth : AuthConfig) (parseWithClaims : String → String → Except String Token)
        (handlers : List HandlerFunc) (c : Context), c.Writer.written = false →
        Unauthorized c (HandleAuth auth parseWithClaims handlers c) ∨
          ∃ claims : JWTClaims, HandleAuth auth parseWithClaims handlers c =
            Context.Next handlers (c.Set "user_id" claims.UserID)) ∧
      (∀ (sha256hex : String → String) (faults : Nat → Bool) (handlers : List HandlerFunc)
        (c : Context) (key : String) (e e2 : CacheError) (r1 r2 : Redis),
        isIdempotentMethod c.Request.Method = true → idempotencyKeyOf sha256hex c = .ok key →
        Cache.Get Value.toResponse? faults c.redis (idempotencyCacheKey c.Request.Method key) =
          (.error e, r1) →
        Cache.Set faults r1 (idempotencyLockKey c.Request.Method key) (.int 1) LOCK_TTL =
          (some e2, r2) →
        c.Writer.written = false →
        ErrorEnvelope 409 c (HandleIdempotency sha256hex faults handlers c)) ∧
      (∀ (cfg : Config) (urlParse : String → Except String URL)
        (transport : OutRequest → RoundTrip) (serviceName : String) (c : Context),
        c.Writer.written = false →
        ((cfg.FowardServiceUrl serviceName = none ∨ cfg.FowardServiceUrl serviceName = some "") →
          ErrorEnvelope 404 c (ForwardRequest cfg urlParse transport serviceName c)) ∧
        (∀ url e, cfg.FowardServiceUrl serviceName = some url → url ≠ "" →
          urlParse url = .error e →
          ErrorEnvelope 500 c (ForwardRequest cfg urlParse transport serviceName c)) ∧
        (∀ url target e, cfg.FowardServiceUrl serviceName = some url → url ≠ "" →
          urlParse url = .ok target → transport (director serviceName target c) = .failed e →
          ErrorEnvelope 502 c (ForwardRequest cfg urlParse transport serviceName c))) ∧
      (∀ (cfg : Config) (faults : Nat → Bool) (handlers : List HandlerFunc) (c : Context)
        (count : Int) (r1 : Redis),
        checkRateLimit cfg faults c.redis (rateLimitKey c) = (.ok (count, true), r1) →
        c.Writer.written = false →
        RateLimitResponse c (HandleRateLimit cfg faults handlers c)) := by
  refine ⟨?_, ?_, ?_, ?_⟩
  · intro auth parseWithClaims handlers c hw
    rcases HandleAuth_cases auth parseWithClaims handlers c hw with h | ⟨t, claims, -, -, h⟩
    · exact Or.inl h
    · exact Or.inr ⟨claims, h⟩
  · intro sha256hex faults handlers c key e e2 r1 r2 hm hk hg hs hw
    rw [HandleIdempotency_conflict sha256hex faults handlers c key e e2 r1 r2 hm hk hg hs]
    exact (Error_abort_envelope { c with redis := r2 } 409 _ hw (by decide) (by decide)
      (by decide)).1
  · intro cfg urlParse transport serviceName c hw
    exact ForwardRequest_failures cfg urlParse transport serviceName c hw
  · intro cfg faults handlers c count r1 hc hw
    exact HandleRateLimit_exceeded_response cfg faults handlers c count r1 hc hw

theorem failure_envelopes_witness :
    (Unauthorized sampleContext (HandleAuth sampleAuth sampleParse (chainOf created) sampleContext) ∨
        ∃ claims : JWTClaims, HandleAuth sampleAuth sampleParse (chainOf created) sampleContext =
          Context.Next (chainOf created) (sampleContext.Set "user_id" claims.UserID)) ∧
      ErrorEnvelope 409 keyedContext
        (HandleIdempotency sampleHash allFaults (chainOf created) keyedContext) ∧
      ErrorEnvelope 404 sampleContext
        (ForwardRequest ordersConfig sampleUrlParse (fun _ => .failed "refused") "unknown-service"
          sampleContext) ∧
      ErrorEnvelope 500 sampleContext
        (ForwardRequest ordersConfig (fun _ => .error "parse error") (fun _ => .failed "refused")
          "orders" sampleContext) ∧
      ErrorEnvelope 502 sampleContext
        (ForwardRequest ordersConfig sampleUrlParse (fun _ => .failed "refused") "orders"
          sampleContext) ∧
      RateLimitResponse sampleContext
        (HandleRateLimit (sampleConfig 1) noFaults [] sampleContext) :=
  ⟨failure_envelopes.1 sampleAuth sampleParse (chainOf created) sampleContext rfl,
    failure_envelopes.2.1 sampleHash allFaults (chainOf created) keyedContext "k1"
      CacheError.unavailable CacheError.unavailable
      (Cache.Get Value.toResponse? allFaults keyedContext.redis
        (idempotencyCacheKey keyedContext.Request.Method "k1")).2
      (Cache.Set allFaults (Cache.Get Value.toResponse? allFaults keyedContext.redis
          (idempotencyCacheKey keyedContext.Request.Method "k1")).2
        (idempotencyLockKey keyedContext.Request.Method "k1") (.int 1) LOCK_TTL).2
      (by decide) rfl rfl rfl rfl,
    (failure_envelopes.2.2.1 ordersConfig sampleUrlParse (fun _ => .failed "refused")
      "unknown-service" sampleContext rfl).1 (Or.inl (by decide)),
    (failure_envelopes.2.2.1 ordersConfig (fun _ => .error "parse error")
      (fun _ => .failed "refused") "orders" sampleContext rfl).2.1 "http://upstream:9000"
      "parse error" (by decide) (by decide) rfl,
    (failure_envelopes.2.2.1 ordersConfig sampleUrlParse (fun _ => .failed "refused") "orders"
      sampleContext rfl).2.2 "http://upstream:9000"
      { Scheme := "http", Host := "upstream:9000", Path := "" } "refused" (by decide) (by decide)
      rfl rfl,
    failure_envelopes.2.2.2 (sampleConfig 1) noFaults [] sampleContext 1
      (checkRateLimit (sampleConfig 1) noFaults sampleContext.redis
        (rateLimitKey sampleContext)).2 rfl rfl⟩

/-! ## Requests that share an explicit key -/

/-- With a non-empty `X-Idempotency-Key` header the key is the header value. -/
theorem idempotencyKeyOf_header (sha256hex : String → String) (c : Context) (key : String)
    (hh : c.Request.GetHeader X_IDEMPOTENCY_KEY = key) (hne : key ≠ "") :
    idempotencyKeyOf sha256hex c = .ok key := by
  unfold idempotencyKeyOf
  simp only [hh, hne, if_false]

/-! ## The counter and the admitted requests -/

/-- C13, evaluated. Under a limit of 5, on a cache without errors and a store without
a counter, the first request from the sample client is admitted and leaves the counter
at 2; the second is admitted as well and leaves it at 3: after `n` admitted requests
the counter holds `n + 1`. -/
theorem counter_one_ahead_of_admitted :
    Admitted [] sampleContext (HandleRateLimit (sampleConfig 5) noFaults [] sampleContext) ∧
      (rateLimitStore (sampleConfig 5) noFaults [] [sampleContext] emptyRedis).data
        "ratelimit:10.0.0.1" = some ⟨.int 2, some 60000000000⟩ ∧
      Admitted [] sampleContext
        (HandleRateLimit (sampleConfig 5) noFaults []
          { sampleContext with
            redis := rateLimitStore (sampleConfig 5) noFaults [] [sampleContext] emptyRedis }) ∧
      (rateLimitStore (sampleConfig 5) noFaults [] [sampleContext, sampleContext] emptyRedis).data
        "ratelimit:10.0.0.1" = some ⟨.int 3, some 60000000000⟩ := by
  have hkey : rateLimitKey sampleContext = "ratelimit:10.0.0.1" := by decide
  have hkeep : KeepsKey [] "ratelimit:10.0.0.1" := fun h hh => absurd hh (List.not_mem_nil h)
  -- the first request
  obtain ⟨r1, hc1, -⟩ := checkRateLimit_absent (sampleConfig 5) noFaults sampleContext.redis
    (rateLimitKey sampleContext) (fun _ => rfl) rfl
  have e5 : decide ((sampleConfig 5).Ratelimit.Limit ≤ 1) = false := by decide
  rw [e5] at hc1
  obtain ⟨c1, a1, a2, a3, a4, a5, a6, -, -⟩ :=
    HandleRateLimit_below (sampleConfig 5) noFaults [] sampleContext 1 r1 hc1
  have hfirst := HandleRateLimit_first (sampleConfig 5) noFaults (fun _ => rfl) [] sampleContext
    (by rw [hkey]; exact hkeep) rfl
  rw [hkey] at hfirst
  have hstore1 : (rateLimitStore (sampleConfig 5) noFaults [] [sampleContext] emptyRedis).data
      "ratelimit:10.0.0.1" = some ⟨.int 2, some 60000000000⟩ := by
    simp only [rateLimitStore]
    rw [show ({ sampleContext with redis := emptyRedis } : Context) = sampleContext from rfl, hfirst]
    simp [sampleConfig]
  -- the second request
  have hc2 := checkRateLimit_present (sampleConfig 5) noFaults
    (rateLimitStore (sampleConfig 5) noFaults [] [sampleContext] emptyRedis)
    "ratelimit:10.0.0.1" 2 _ (fun _ => rfl) hstore1
  have e2 : decide ((sampleConfig 5).Ratelimit.Limit ≤ 2) = false := by decide
  rw [e2] at hc2
  obtain ⟨c2, b1, b2, b3, b4, b5, b6, -, -⟩ :=
    HandleRateLimit_below (sampleConfig 5) noFaults []
      { sampleContext with
        redis := rateLimitStore (sampleConfig 5) noFaults [] [sampleContext] emptyRedis } 2 _
      (by rw [rateLimitKey_redis, hkey]; exact hc2)
  refine ⟨⟨c1, a1, a2, a3, a4, a5, a6⟩, hstore1, ⟨c2, b1, b2, b3, b4, b5, b6⟩, ?_⟩
  have h := rateLimitStore_counter (sampleConfig 5) noFaults (fun _ => rfl) [] "10.0.0.1"
    (by
      have : "ratelimit:" ++ "10.0.0.1" = "ratelimit:10.0.0.1" := by decide
      rw [this]
      exact hkeep)
    [sampleContext] (by
      intro x hx
      simp only [List.mem_singleton] at hx
      subst hx
      rfl)
    (rateLimitStore (sampleConfig 5) noFaults [] [sampleContext] emptyRedis) 2 _ (by decide)
    (by
      have : "ratelimit:" ++ "10.0.0.1" = "ratelimit:10.0.0.1" := by decide
      rw [this]
      exact hstore1)
  have e : "ratelimit:" ++ "10.0.0.1" = "ratelimit:10.0.0.1" := by decide
  rw [e] at h
  show (rateLimitStore (sampleConfig 5) noFaults [] [sampleContext]
    (rateLimitStore (sampleConfig 5) noFaults [] [sampleContext] emptyRedis)).data _ = _
  rw [h]
  simp [sampleConfig]

/-! ## The entry that is never stored -/

/-- Processing a request leaves every key but the lock as the chain left it: the
write of the `CachedResponse` is refused whatever the status. -/
theorem process_entry_untouched (sha256hex : String → String) (faults : Nat → Bool)
    (handlers : List HandlerFunc) (c : Context) (key : String) (e : CacheError) (r1 r2 : Redis)
    (hm : isIdempotentMethod c.Request.Method = true)
    (hk : idempotencyKeyOf sha256hex c = .ok key)
    (hg : Cache.Get Value.toResponse? faults c.redis (idempotencyCacheKey c.Request.Method key) =
      (.error e, r1))
    (hs : Cache.Set faults r1 (idempotencyLockKey c.Request.Method key) (.int 1) LOCK_TTL =
      (none, r2))
    (mid : Context)
    (hmid : mid = Context.Next handlers
      { c with redis := r2, Writer := { c.Writer with captured := [] } })
    (k : String) (hne : k ≠ idempotencyLockKey c.Request.Method key) :
    (HandleIdempotency sha256hex faults handlers c).redis.data k = mid.redis.data k := by
  obtain ⟨-, -, h3⟩ := HandleIdempotency_process_fields sha256hex faults handlers c key e r1 r2
    hm hk hg hs mid hmid
  rw [h3, Delete_other _ _ _ _ hne]
  split
  · rfl
  · rw [(Set_response_data _ _ _ _ _).1]

/-- A non-safe request with key `key` on a store that holds nothing under its cache
key, with a cache that answers every call: the response, the trace and the entry
under the cache key are those the chain leaves. -/
theorem process_on_miss (sha256hex : String → String) (handlers : List HandlerFunc)
    (c : Context) (key : String)
    (hm : isIdempotentMethod c.Request.Method = true)
    (hk : idempotencyKeyOf sha256hex c = .ok key)
    (hd : c.redis.data (idempotencyCacheKey c.Request.Method key) = none)
    (mid : Context)
    (hmid : mid = Context.Next handlers
      { c with
        redis := (Cache.Set noFaults
          (Cache.Get Value.toResponse? noFaults c.redis
            (idempotencyCacheKey c.Request.Method key)).2
          (idempotencyLockKey c.Request.Method key) (.int 1) LOCK_TTL).2
        Writer := { c.Writer with captured := [] } }) :
    (HandleIdempotency sha256hex noFaults handlers c).Writer = mid.Writer ∧
      (HandleIdempotency sha256hex noFaults handlers c).trace = mid.trace ∧
      (HandleIdempotency sha256hex noFaults handlers c).redis.data
        (idempotencyCacheKey c.Request.Method key) =
        mid.redis.data (idempotencyCacheKey c.Request.Method key) := by
  have hg : Cache.Get Value.toResponse? noFaults c.redis
      (idempotencyCacheKey c.Request.Method key) =
      (.error .Nil, (Cache.Get Value.toResponse? noFaults c.redis
        (idempotencyCacheKey c.Request.Method key)).2) := by
    simp [Cache.Get, noFaults, hd]
  have hs : Cache.Set noFaults (Cache.Get Value.toResponse? noFaults c.redis
        (idempotencyCacheKey c.Request.Method key)).2
      (idempotencyLockKey c.Request.Method key) (.int 1) LOCK_TTL =
      (none, (Cache.Set noFaults (Cache.Get Value.toResponse? noFaults c.redis
        (idempotencyCacheKey c.Request.Method key)).2
      (idempotencyLockKey c.Request.Method key) (.int 1) LOCK_TTL).2) := by
    simp [Cache.Set, noFaults]
  obtain ⟨p1, p2, -⟩ := HandleIdempotency_process_fields sha256hex noFaults handlers c key _ _ _
    hm hk hg hs mid hmid
  exact ⟨p1, p2, process_entry_untouched sha256hex noFaults handlers c key _ _ _ hm hk hg hs mid
    hmid _ (cacheKey_ne_lockKey _ _)⟩

/-- The same at the head of a chain with one handler `h` that leaves the store alone:
the handler is called once, its writer is the response, and nothing is under the
cache key afterwards. -/
theorem process_on_miss_chainOf (sha256hex : String → String) (h : HandlerFunc)
    (c : Context) (key : String)
    (hm : isIdempotentMethod c.Request.Method = true)
    (hk : idempotencyKeyOf sha256hex c = .ok key)
    (hd : c.redis.data (idempotencyCacheKey c.Request.Method key) = none)
    (hi : c.index = 0) (hr : ∀ x : Context, (h x).redis = x.redis) :
    (HandleIdempotency sha256hex noFaults (chainOf h) c).Writer =
        (h { c with
          index := 1
          redis := (Cache.Set noFaults
            (Cache.Get Value.toResponse? noFaults c.redis
              (idempotencyCacheKey c.Request.Method key)).2
            (idempotencyLockKey c.Request.Method key) (.int 1) LOCK_TTL).2
          Writer := { c.Writer with captured := [] } }).Writer ∧
      (HandleIdempotency sha256hex noFaults (chainOf h) c).trace = c.trace ++ [1] ∧
      (HandleIdempotency sha256hex noFaults (chainOf h) c).redis.data
        (idempotencyCacheKey c.Request.Method key) = none := by
  obtain ⟨p1, p2, p3⟩ := process_on_miss sha256hex (chainOf h) c key hm hk hd _ rfl
  rw [p1, p2, p3, Next_chainOf h _ (by exact hi)]
  refine ⟨rfl, rfl, ?_⟩
  simp only [hr]
  simp [Cache.Set, noFaults, Redis.record, Get_data, hd, cacheKey_ne_lockKey]

theorem created_redis (x : Context) : (created x).redis = x.redis := rfl

theorem failing_redis (x : Context) : (failing x).redis = x.redis := rfl

/-- C3, evaluated. The sample POST with `X-Idempotency-Key: k1` is processed on the
empty store by a cache that answers every call, and the handler answers 201. The
status is below 500, yet no Cached Response Entry is under `idempotency:POST:k1`
afterwards: the write of the `CachedResponse` struct is refused, and a read of the key
finds nothing. -/
theorem response_below_500_not_stored :
    (HandleIdempotency sampleHash noFaults (chainOf created) keyedContext).Writer.status = 201 ∧
      (∀ (r : Redis) (resp : CachedResponse),
        (Cache.Set noFaults r "idempotency:POST:k1" (.response resp) IDEMPOTENCY_TTL).1 =
          some CacheError.marshal) ∧
      (HandleIdempotency sampleHash noFaults (chainOf created) keyedContext).redis.data
        "idempotency:POST:k1" = none ∧
      (Cache.Get Value.toResponse? noFaults
        (HandleIdempotency sampleHash noFaults (chainOf created) keyedContext).redis
        "idempotency:POST:k1").1 = .error CacheError.Nil := by
  obtain ⟨p1, -, p3⟩ := process_on_miss_chainOf sampleHash created keyedContext "k1" (by decide)
    rfl rfl rfl created_redis
  have hck : idempotencyCacheKey keyedContext.Request.Method "k1" = "idempotency:POST:k1" := by
    decide
  rw [hck] at p3
  refine ⟨?_, ?_, p3, ?_⟩
  · rw [p1]
    rfl
  · intro r resp
    simp [Cache.Set, noFaults]
  · simp [Cache.Get, noFaults, p3]

/-- C2, evaluated. The sample POST with `X-Idempotency-Key: k1` is processed on the
empty store by a cache that answers every call; the handler answers 201. The same
request sent again, on the store the first one left, is not answered from the cache:
the handler is called a second time and the response carries no `X-Idempotency-Hit`. -/
theorem second_request_processed_again :
    (HandleIdempotency sampleHash noFaults (chainOf created) keyedContext).Writer.status = 201 ∧
      (HandleIdempotency sampleHash noFaults (chainOf created) keyedContext).trace = [1] ∧
      (HandleIdempotency sampleHash noFaults (chainOf created)
        { keyedContext with
          redis := (HandleIdempotency sampleHash noFaults (chainOf created)
            keyedContext).redis }).trace = [1] ∧
      (HandleIdempotency sampleHash noFaults (chainOf created)
        { keyedContext with
          redis := (HandleIdempotency sampleHash noFaults (chainOf created)
            keyedContext).redis }).Writer.status = 201 ∧
      (HandleIdempotency sampleHash noFaults (chainOf created)
        { keyedContext with
          redis := (HandleIdempotency sampleHash noFaults (chainOf created)
            keyedContext).redis }).Writer.header "X-Idempotency-Hit" = none := by
  obtain ⟨p1, p2, p3⟩ := process_on_miss_chainOf sampleHash created keyedContext "k1" (by decide)
    rfl rfl rfl created_redis
  obtain ⟨q1, q2, -⟩ := process_on_miss_chainOf sampleHash created
    { keyedContext with
      redis := (HandleIdempotency sampleHash noFaults (chainOf created) keyedContext).redis }
    "k1" (by decide) rfl p3 rfl created_redis
  refine ⟨?_, ?_, ?_, ?_, ?_⟩
  · rw [p1]
    rfl
  · rw [p2]
    rfl
  · rw [q2]
    rfl
  · rw [q1]
    rfl
  · rw [q1]
    rfl

/-- C14, evaluated. The sample POST to `/orders` and a POST to `/payments` by user `u2`
with another body carry the same `X-Idempotency-Key: k1`: both get the key `k1` and the
same cache key and lock key. The first is processed on the empty store by a cache that
answers every call (201). The second, on the store the first one left, is not answered
with the response of the first: its own handler is called and its 500 is the response,
without `X-Idempotency-Hit`. -/
theorem shared_key_second_request_runs_handler :
    idempotencyKeyOf sampleHash keyedContext = .ok "k1" ∧
      idempotencyKeyOf sampleHash otherKeyedContext = .ok "k1" ∧
      idempotencyCacheKey otherKeyedContext.Request.Method "k1" =
        idempotencyCacheKey keyedContext.Request.Method "k1" ∧
      idempotencyLockKey otherKeyedContext.Request.Method "k1" =
        idempotencyLockKey keyedContext.Request.Method "k1" ∧
      (HandleIdempotency sampleHash noFaults (chainOf created) keyedContext).Writer.status = 201 ∧
      (HandleIdempotency sampleHash noFaults (chainOf failing)
        { otherKeyedContext with
          redis := (HandleIdempotency sampleHash noFaults (chainOf created)
            keyedContext).redis }).Writer.status = 500 ∧
      (HandleIdempotency sampleHash noFaults (chainOf failing)
        { otherKeyedContext with
          redis := (HandleIdempotency sampleHash noFaults (chainOf created)
            keyedContext).redis }).trace = [1] ∧
      (HandleIdempotency sampleHash noFaults (chainOf failing)
        { otherKeyedContext with
          redis := (HandleIdempotency sampleHash noFaults (chainOf created)
            keyedContext).redis }).Writer.header "X-Idempotency-Hit" = none := by
  obtain ⟨p1, -, p3⟩ := process_on_miss_chainOf sampleHash created keyedContext "k1" (by decide)
    rfl rfl rfl created_redis
  obtain ⟨q1, q2, -⟩ := process_on_miss_chainOf sampleHash failing
    { otherKeyedContext with
      redis := (HandleIdempotency sampleHash noFaults (chainOf created) keyedContext).redis }
    "k1" (by decide) rfl p3 rfl failing_redis
  refine ⟨rfl, rfl, rfl, rfl, ?_, ?_, ?_, ?_⟩
  · rw [p1]
    rfl
  · rw [q1]
    rfl
  · rw [q2]
    rfl
  · rw [q1]
    rfl

/-! ## Routes of the proxy -/

theorem nextLoop_single (h : HandlerFunc) (c : Context) (hi : c.index = 0) :
    nextLoop [h] c =
      { h c with index := max 0 (h c).index + 1, trace := c.trace ++ [0] } := by
  rw [nextLoop_step [h] c (by simp [hi])]
  rw [nextLoop_of_le [h] _ (by simp)]
  simp [hi]

/-- C8, evaluated. With the registry `orders ↦ http://upstream:9000` and the routes of
`SetupRoutes`, the path `/orders` is forwarded with the outbound path `/`, and the
director would turn `/orders/123` into `/123`; but `/orders/123` matches no route: it
is answered 404 by the router and nothing is sent to the upstream. -/
theorem sub_path_never_forwarded :
    directorPath "orders" "" "/orders/123" = "/123" ∧
      (serveHTTP (SetupRoutes ordersConfig sampleUrlParse sampleUpstream ["orders"])
        (pathContext "/orders")).outbound.map (fun req => req.Path) = ["/"] ∧
      (serveHTTP (SetupRoutes ordersConfig sampleUrlParse sampleUpstream ["orders"])
        (pathContext "/orders")).Writer.status = 200 ∧
      (serveHTTP (SetupRoutes ordersConfig sampleUrlParse sampleUpstream ["orders"])
        (pathContext "/orders/123")).Writer.status = 404 ∧
      (serveHTTP (SetupRoutes ordersConfig sampleUrlParse sampleUpstream ["orders"])
        (pathContext "/orders/123")).Writer.body = [.raw "404 page not found"] ∧
      (serveHTTP (SetupRoutes ordersConfig sampleUrlParse sampleUpstream ["orders"])
        (pathContext "/orders/123")).outbound = [] := by
  have h1 : serveHTTP (SetupRoutes ordersConfig sampleUrlParse sampleUpstream ["orders"])
      (pathContext "/orders") =
      nextLoop [ForwardRequest ordersConfig sampleUrlParse sampleUpstream "orders"]
        { pathContext "/orders" with index := 0 } := rfl
  refine ⟨by decide, ?_, ?_, rfl, rfl, rfl⟩
  · rw [h1, nextLoop_single _ _ rfl]
    decide
  · rw [h1, nextLoop_single _ _ rfl]
    rfl

/-! ## The health document -/

theorem probeService_status (p : Probe) :
    ((probeService p).status = "down" ↔ ¬ ∃ statusCode, p = .response statusCode) ∧
      ((probeService p).status = "up" ∨ (probeService p).status = "degraded" ∨
        (probeService p).status = "down") := by
  cases p with
  | requestError err => simp [probeService]
  | sendError err => simp [probeService]
  | response statusCode =>
    by_cases h : statusCode = 200
    · simp [probeService, h]
    · simp [probeService, h]

theorem asHealthy_down (p : Probe) :
    (probeService (asHealthy p)).status = "down" ↔ (probeService p).status = "down" := by
  cases p with
  | requestError err => simp [asHealthy]
  | sendError err => simp [asHealthy]
  | response statusCode =>
    rw [(probeService_status _).1, (probeService_status _).1]
    simp [asHealthy]

/-- C10. Health aggregation: for every result of the cache ping and every collection
of probe outcomes, `CheckHealth` answers with the success envelope around a document
whose `status` is the overall status; that status is `up` exactly when the ping
succeeded and no service is `down` (a service is `down` exactly when its probe got no
answer), and `degraded` otherwise; it is never `down`, also when the ping and every
probe fail; and taking every `degraded` service as `up` does not change it. -/
theorem health_aggregation (statusText : Nat → String) (ping : Option String)
    (probes : List (String × Probe)) (c : Context) :
    (CheckHealth statusText ping probes c).Writer.body =
        c.Writer.body ++
          [.json (NewResponse 200 "success" (some (healthDocument statusText ping probes))).toJson] ∧
      (healthDocument statusText ping probes).field "status" =
        some (.str (healthStatus ping probes)) ∧
      (c.Writer.written = false → (CheckHealth statusText ping probes c).Writer.status = 200) ∧
      (healthStatus ping probes = "up" ↔
        ping = none ∧ ∀ p ∈ probes, (probeService p.2).status ≠ "down") ∧
      (∀ p : Probe, ((probeService p).status = "down" ↔ ¬ ∃ statusCode, p = .response statusCode) ∧
        ((probeService p).status = "up" ∨ (probeService p).status = "degraded" ∨
          (probeService p).status = "down")) ∧
      (healthStatus ping probes ≠ "up" → healthStatus ping probes = "degraded") ∧
      healthStatus ping probes ≠ "down" ∧
      healthStatus ping (probes.map fun p => (p.1, asHealthy p.2)) = healthStatus ping probes := by
  obtain ⟨h1, h2, h3, -⟩ := overallStatus_aggregation ping
    (probes.map fun p => (p.1, probeService p.2))
  refine ⟨?_, ?_, ?_, ?_, probeService_status, h2, h3, ?_⟩
  · unfold CheckHealth response.Success Context.JSON
    rw [Render_body, if_pos (by decide)]
  · simp [healthDocument, Json.field]
  · intro hw
    unfold CheckHealth response.Success Context.JSON
    exact Render_status _ _ _ _ hw (by decide)
  · unfold healthStatus
    rw [h1]
    constructor
    · rintro ⟨hp, hs⟩
      exact ⟨hp, fun p hp2 => hs _ (List.mem_map.mpr ⟨p, hp2, rfl⟩)⟩
    · rintro ⟨hp, hs⟩
      refine ⟨hp, ?_⟩
      intro s hs2
      obtain ⟨p, hp2, rfl⟩ := List.mem_map.mp hs2
      exact hs p hp2
  · unfold healthStatus overallStatus
    simp only [scanServices_eq]
    have e : (∃ s ∈ List.map (fun p : String × Probe => (p.1, probeService p.2))
          (List.map (fun p : String × Probe => (p.1, asHealthy p.2)) probes),
          s.2.status = "down") ↔
        ∃ s ∈ List.map (fun p : String × Probe => (p.1, probeService p.2)) probes,
          s.2.status = "down" := by
      simp only [List.mem_map, List.map_map]
      constructor
      · rintro ⟨s, ⟨p, hp, rfl⟩, hs⟩
        exact ⟨_, ⟨p, hp, rfl⟩, (asHealthy_down p.2).mp hs⟩
      · rintro ⟨s, ⟨p, hp, rfl⟩, hs⟩
        exact ⟨_, ⟨p, hp, rfl⟩, (asHealthy_down p.2).mpr hs⟩
    simp only [e]

end Gateway
